import Mathlib

/-!
Verification of the windowed raster detection core of the
`c2tactical_server` repository (files
`satellite/analysis/threat_detector.py`,
`satellite/analysis/processors.py`,
`satellite/analysis/image_optimizer.py`).

The embedding models real numbers exactly as rationals (the Python code
computes with IEEE doubles; every formula of the claims is about exact
comparisons and exact arithmetic on small values, where the two agree),
except for the explicit non-finite-value analysis of `_normalize_band`,
which uses a dedicated IEEE-style value type `FV` with NaN and infinities.

External library calls (rasterio window reads, skimage morphology and
component labelling, scipy center-of-mass and hierarchical clustering,
cv2 blob detection, pyproj reprojection) are modelled as parameters of
the detector run: the repository's own control flow — window grids,
gating thresholds, deduplication, coordinate validation, and the
confidence / severity formulas — is embedded directly from the source.
-/

namespace C2TS

/-- Python `range(0, stop, step)` for a possibly negative `stop` and a
positive `step`, as used by the window loops of `threat_detector.py`
(`range(0, height, self.chunk_size)`, `range(0, height - sample_size, stride)`).
Elements are the multiples `k * step < stop`. -/
def pyRange (stop : ℤ) (step : ℕ) : List ℕ :=
  (List.range (((stop + step - 1) / step).toNat)).map (· * step)

/-- The WGS84 bounding box of the raster, as produced in
`_validate_coordinates`: the raster bounds, reprojected via
`transform_bounds` when the source CRS is not EPSG:4326 (the
reprojection itself is external; the box is a run parameter). -/
structure GeoBounds where
  minLon : ℚ
  minLat : ℚ
  maxLon : ℚ
  maxLat : ℚ
  deriving DecidableEq, Repr

/-- Model of `ThreatDetector._validate_coordinates` (threat_detector.py:89-153):
reject points outside [-180,180]x[-90,90]; reject points outside the
raster's WGS84 bounding box expanded on each axis by `tolerance = 0.1`
of that axis's span. -/
def validCoordinates (b : GeoBounds) (lon lat : ℚ) : Bool :=
  if ¬ (-180 ≤ lon ∧ lon ≤ 180 ∧ -90 ≤ lat ∧ lat ≤ 90) then false
  else
    let lonRange := b.maxLon - b.minLon
    let latRange := b.maxLat - b.minLat
    if ¬ (b.minLon - 0.1 * lonRange ≤ lon ∧ lon ≤ b.maxLon + 0.1 * lonRange) then false
    else if ¬ (b.minLat - 0.1 * latRange ≤ lat ∧ lat ≤ b.maxLat + 0.1 * latRange) then false
    else true

/-- One detection dictionary as appended by the detectors.  `location`
is stored `(lat, lon)` in the source; here the two coordinates are
separate fields.  `px`/`py` keep the exact pixel centroid that the
source feeds both to `int(...)` for `pixel_coords` and to the
dedup-key computation.  `description` and the free-form
`technical_details` map carry no information used by any claim and are
not modelled. -/
structure Detection where
  threat_type : String
  severity : String
  confidence : ℚ
  lat : ℚ
  lon : ℚ
  px : ℚ
  py : ℚ
  area_pixels : Option ℤ
  vehicle_count : Option ℕ
  deriving DecidableEq, Repr

/-- The DedupKey of a detection: `(int(x // bucket), int(y // bucket))`
with bucket 100 for the fire detector and 500 for the
structural-damage and vehicle detectors (threat_detector.py:222-225,
365-368, 518-521). -/
def detKey (d : Detection) : ℤ × ℤ :=
  let bucket : ℚ := if d.threat_type = "fire" then 100 else 500
  (⌊d.px / bucket⌋, ⌊d.py / bucket⌋)

/-- The mutable per-run state of a `ThreatDetector` instance:
`self.processed_regions` (one shared set for all detectors of the
instance, threat_detector.py:40) together with the accumulated
detection list (`all_detections` on the processor side). -/
structure DetState where
  seen : List (ℤ × ℤ)
  dets : List Detection
  deriving DecidableEq, Repr

/-- The common emission step of all three detectors: a candidate whose
key is already in `processed_regions` is dropped; a candidate failing
coordinate validation (`ok = false`) is dropped with a warning; an
accepted candidate records its key and appends its detection.  The
source orders the seen-check and the validation check differently in
the fire detector (seen first) than in the damage/vehicle detectors
(validation first); the resulting state is identical either way, so one
function models both orders. -/
def tryEmit (st : DetState) (key : ℤ × ℤ) (ok : Bool) (d : Detection) : DetState :=
  if key ∈ st.seen then st
  else if ok then ⟨key :: st.seen, st.dets ++ [d]⟩
  else st

/-- Model of `_calculate_severity` (threat_detector.py:574-583). -/
def calculateSeverity (area : ℤ) (intensity : ℚ) : String :=
  let score := (area : ℚ) / 1000 + intensity
  if score > 2.0 then "critical"
  else if score > 1.0 then "high"
  else if score > 0.5 then "medium"
  else "low"

/-- Model of `_vehicle_severity` (threat_detector.py:585-593). -/
def vehicleSeverity (count : ℕ) : String :=
  if count > 20 then "critical"
  else if count > 10 then "high"
  else if count > 5 then "medium"
  else "low"

/-- One connected component surviving from a fire-mask labelling of one
window (`measure.regionprops` output together with the mean fire index
over the component's pixels) — the per-window image processing is
external (numpy/skimage) and enters the run as data. -/
structure FireRegion where
  centroidRow : ℚ
  centroidCol : ℚ
  area : ℤ
  avgFireIndex : ℚ
  deriving DecidableEq, Repr

/-- The detection dictionary built for a surviving fire component
(threat_detector.py:249-275). -/
def fireDetectionOf (r : FireRegion) (gx gy lon lat : ℚ) : Detection :=
  { threat_type := "fire"
  , severity := calculateSeverity r.area r.avgFireIndex
  , confidence := min (0.6 + r.avgFireIndex * 0.4) 0.99
  , lat := lat
  , lon := lon
  , px := gx
  , py := gy
  , area_pixels := some r.area
  , vehicle_count := none }

/-- The edge analysis of one structural-damage sample window: the edge
density of the thresholded Sobel mask and the mask's center of mass
(threat_detector.py:334-349; the Sobel operator and `center_of_mass`
are external scipy calls). -/
structure DamageSample where
  edgeDensity : ℚ
  cy : ℚ
  cx : ℚ
  deriving DecidableEq, Repr

/-- The detection dictionary built for a high-edge-density damage sample
(threat_detector.py:373-398). -/
def damageDetectionOf (s : DamageSample) (gx gy lon lat : ℚ) : Detection :=
  { threat_type := "structural_damage"
  , severity :=
      if s.edgeDensity > 0.4 then "critical"
      else if s.edgeDensity > 0.3 then "high"
      else "medium"
  , confidence := min (0.6 + s.edgeDensity * 0.35) 0.95
  , lat := lat
  , lon := lon
  , px := gx
  , py := gy
  , area_pixels := some (512 * 512)
  , vehicle_count := none }

/-- A raster together with the outcomes of all external library calls
of one detection run: the geolocation function `_pixel_to_geo`
(affine transform plus reprojection), the WGS84 bounds used by
`_validate_coordinates`, and the per-window image-processing results
of the three detectors (an empty list / `none` covers both the all-zero
skip and a per-window read error, which the source handles by
`continue`). -/
structure RasterInput where
  height : ℕ
  width : ℕ
  bandCount : ℕ
  bounds : GeoBounds
  geo : ℚ → ℚ → ℚ × ℚ
  fireRegionsOf : ℕ × ℕ → List FireRegion
  damageSampleOf : ℕ × ℕ → Option DamageSample
  keypointsOf : ℕ × ℕ → List (ℚ × ℚ)
  clusterOf : List (ℚ × ℚ) → List ℕ

/-! ## Fire / explosion detector (`detect_fires_explosions`, threat_detector.py:155-298) -/

/-- The overlapping window grid of the fire detector:
`(y_start, x_start)` for `y_start in range(0, height, chunk)` and
`x_start in range(0, width, chunk)` (the `+ overlap` only widens the
window extents read, which live inside `fireRegionsOf`). -/
def fireWindows (height width chunk : ℕ) : List (ℕ × ℕ) :=
  (pyRange height chunk).flatMap fun y => (pyRange width chunk).map fun x => (y, x)

/-- Processing of one labelled component of one fire window
(threat_detector.py:215-275): keep components with `area > 100`,
translate the centroid to global pixel coordinates, dedup on bucket
100, validate the geolocated point, and emit. -/
def fireStep (R : RasterInput) (yStart xStart : ℕ) (st : DetState) (r : FireRegion) :
    DetState :=
  if 100 < r.area then
    let gy : ℚ := (yStart : ℚ) + r.centroidRow
    let gx : ℚ := (xStart : ℚ) + r.centroidCol
    let p := R.geo gx gy
    tryEmit st (⌊gx / 100⌋, ⌊gy / 100⌋) (validCoordinates R.bounds p.1 p.2)
      (fireDetectionOf r gx gy p.1 p.2)
  else st

/-- Model of `detect_fires_explosions`: returns immediately when the raster has
fewer than 3 bands, otherwise folds the per-window components through
the dedup / validation step.  The state threads `self.processed_regions`
and accumulates the emitted detections. -/
def detect_fires_explosions (R : RasterInput) (chunk : ℕ) (st : DetState) : DetState :=
  if R.bandCount < 3 then st
  else
    (fireWindows R.height R.width chunk).foldl
      (fun s w => (R.fireRegionsOf w).foldl (fun s' r => fireStep R w.1 w.2 s' r) s) st

/-! ## Structural-damage detector (`detect_structural_damage`, threat_detector.py:300-419) -/

/-- The sparse sample grid of the damage detector: 512x512 samples at a
2048-pixel stride, `range(0, height - sample_size, stride)` on each
axis. -/
def damageWindows (height width : ℕ) : List (ℕ × ℕ) :=
  (pyRange ((height : ℤ) - 512) 2048).flatMap fun y =>
    (pyRange ((width : ℤ) - 512) 2048).map fun x => (y, x)

/-- Processing of one damage sample window (threat_detector.py:325-398):
emit only when `edge_density > 0.2`, at the edge-mask center of mass,
with validation and bucket-500 dedup. -/
def damageStep (R : RasterInput) (yStart xStart : ℕ) (st : DetState)
    (s : Option DamageSample) : DetState :=
  match s with
  | none => st
  | some s =>
    if s.edgeDensity > 0.2 then
      let gy : ℚ := (yStart : ℚ) + s.cy
      let gx : ℚ := (xStart : ℚ) + s.cx
      let p := R.geo gx gy
      tryEmit st (⌊gx / 500⌋, ⌊gy / 500⌋) (validCoordinates R.bounds p.1 p.2)
        (damageDetectionOf s gx gy p.1 p.2)
    else st

/-- Model of `detect_structural_damage`. -/
def detect_structural_damage (R : RasterInput) (st : DetState) : DetState :=
  (damageWindows R.height R.width).foldl
    (fun s w => damageStep R w.1 w.2 s (R.damageSampleOf w)) st

/-! ## Vehicle-concentration detector (`detect_vehicle_concentrations`,
threat_detector.py:421-567) -/

/-- Inner sampling loop over one row of the vehicle sample grid:
checks `sample_count >= max_samples` before each window, increments
the counter, and reads the window.  Returns the windows read and the
updated counter. -/
def vehicleRowLoop (maxS y : ℕ) : List ℕ → ℕ → List (ℕ × ℕ) × ℕ
  | [], c => ([], c)
  | x :: xs, c =>
    if maxS ≤ c then ([], c)
    else
      let r := vehicleRowLoop maxS y xs (c + 1)
      ((y, x) :: r.1, r.2)

/-- Outer sampling loop of the vehicle detector, breaking out of both
loops once `sample_count >= max_samples`. -/
def vehicleLoop (maxS : ℕ) (xs : List ℕ) : List ℕ → ℕ → List (ℕ × ℕ)
  | [], _ => []
  | y :: ys, c =>
    if maxS ≤ c then []
    else
      let r := vehicleRowLoop maxS y xs c
      r.1 ++ vehicleLoop maxS xs ys r.2

/-- The list of 512x512 sample windows actually read by
`detect_vehicle_concentrations` (threat_detector.py:438-455): a
1024-stride grid capped at
`max_samples = min(4, (height // 1024) * (width // 1024) // 10)`. -/
def vehicleSamples (height width : ℕ) : List (ℕ × ℕ) :=
  let maxS := min 4 (height / 1024 * (width / 1024) / 10)
  vehicleLoop maxS (pyRange ((width : ℤ) - 512) 1024)
    (pyRange ((height : ℤ) - 512) 1024) 0

/-- All blob centers collected over the sampled windows, with the
keypoint coordinates of the 2x-downsampled block scaled back and
offset to global pixel space (threat_detector.py:479-483). -/
def allKeypoints (R : RasterInput) : List (ℚ × ℚ) :=
  (vehicleSamples R.height R.width).foldl
    (fun acc w =>
      acc ++ (R.keypointsOf w).map fun p => ((w.2 : ℚ) + p.1 * 2, (w.1 : ℚ) + p.2 * 2))
    []

/-- Model of `np.unique` over the cluster labels returned by `fclusterdata`:
the distinct labels in ascending order. -/
def npUnique (l : List ℕ) : List ℕ :=
  (List.range (l.foldr max 0 + 1)).filter (fun n => n ∈ l)

/-- Mean of the member positions of one cluster
(`np.mean(cluster_points[:, 0])`, `np.mean(cluster_points[:, 1])`). -/
def clusterCentroid (pts : List (ℚ × ℚ)) : ℚ × ℚ :=
  ((pts.map Prod.fst).sum / pts.length, (pts.map Prod.snd).sum / pts.length)

/-- The detection dictionary built for one vehicle cluster
(threat_detector.py:526-553). -/
def vehicleDetectionOf (pts : List (ℚ × ℚ)) (cx cy lon lat : ℚ) : Detection :=
  { threat_type := "vehicle_convoy"
  , severity := vehicleSeverity pts.length
  , confidence := min (0.6 + (pts.length : ℚ) / 50) 0.9
  , lat := lat
  , lon := lon
  , px := cx
  , py := cy
  , area_pixels := none
  , vehicle_count := some pts.length }

/-- The member points of one cluster label, as selected by
`points[clusters == cluster_id]` over the zipped point/label arrays. -/
def clusterPts (ptsIds : List ((ℚ × ℚ) × ℕ)) (cid : ℕ) : List (ℚ × ℚ) :=
  (ptsIds.filter (fun q => q.2 == cid)).map Prod.fst

/-- Processing of one cluster label (threat_detector.py:501-553): the
cluster's member points, the `>= 5` size gate, validation of the
geolocated centroid, bucket-500 dedup, and emission. -/
def clusterStep (R : RasterInput) (ptsIds : List ((ℚ × ℚ) × ℕ)) (st : DetState)
    (cid : ℕ) : DetState :=
  let pts := clusterPts ptsIds cid
  if 5 ≤ pts.length then
    let c := clusterCentroid pts
    let p := R.geo c.1 c.2
    tryEmit st (⌊c.1 / 500⌋, ⌊c.2 / 500⌋) (validCoordinates R.bounds p.1 p.2)
      (vehicleDetectionOf pts c.1 c.2 p.1 p.2)
  else st

/-- Model of `detect_vehicle_concentrations`: collect blob centers over the
capped sample grid, and only if strictly more than 5 keypoints were
collected (`if len(all_keypoints) > 5`), cluster them and process each
distinct cluster label. -/
def detect_vehicle_concentrations (R : RasterInput) (st : DetState) : DetState :=
  let kps := allKeypoints R
  if 5 < kps.length then
    let ids := R.clusterOf kps
    (npUnique ids).foldl (clusterStep R (kps.zip ids)) st
  else st

/-- One `threat_detection` run as sequenced by
`AnalysisProcessor.process` (processors.py:44-57): fire, then damage,
then vehicles, all three on the same `ThreatDetector` instance, i.e.
on the same threaded `processed_regions` state, with the default
`chunk_size = 2048`. -/
def runThreatDetection (R : RasterInput) (st : DetState) : DetState :=
  detect_vehicle_concentrations R
    (detect_structural_damage R (detect_fires_explosions R 2048 st))

/-! ## `AnalysisProcessor.process` (processors.py:23-145)

Django model saves, `ThreatDetection` bulk creation and the GEOS
`Point` construction are external side effects; the analysis-result
row is modelled as a record of the fields `process` writes.  The
generated summary text is not referenced by any claim and is not
modelled.  An unrecoverable exception raised anywhere inside the `try`
body is modelled by the `fault` parameter carrying its message; the
`except` branch then applies exactly the handler of
processors.py:134-145. -/

/-- The fields of the `AnalysisResult` / `SatelliteImage` rows and the
`AnalysisLog` rows written by `AnalysisProcessor.process`.
`startedSet` / `completedSet` record that `started_at` /
`completed_at` were assigned a timestamp. -/
structure AnalysisState where
  status : String
  startedSet : Bool
  completedSet : Bool
  errorMessage : Option String
  confidenceScore : ℚ
  threatCount : ℕ
  rawDetections : List Detection
  analyzed : Bool
  analysisCount : ℕ
  logs : List (String × String)
  deriving DecidableEq, Repr

/-- Mean detection confidence: `sum(...) / len(...)` when the list is
non-empty, `0.0` otherwise (processors.py:104-110). -/
def avgConfidence (dets : List Detection) : ℚ :=
  if dets.length = 0 then 0
  else (dets.map (fun d => d.confidence)).sum / dets.length

/-- Detector dispatch on the analysis type (processors.py:46-68):
`threat_detection` runs fire + damage + vehicles in that order on a
fresh `ThreatDetector` (empty `processed_regions`);
`object_recognition` runs vehicles only; any other type writes a
single warning log entry and produces no detections.  Returns the
collected `all_detections` and the log entries of the branch. -/
def runDetectorsFor (atype : String) (R : RasterInput) :
    List Detection × List (String × String) :=
  if atype = "threat_detection" then
    ((runThreatDetection R ⟨[], []⟩).dets,
     [("info", "Running fire and explosion detection"),
      ("info", "Running structural damage detection"),
      ("info", "Running vehicle concentration detection")])
  else if atype = "object_recognition" then
    ((detect_vehicle_concentrations R ⟨[], []⟩).dets,
     [("info", "Running vehicle concentration detection")])
  else
    ([], [("warning", "Unknown analysis type: " ++ atype)])

/-- Model of `AnalysisProcessor.process`. -/
def process (atype : String) (R : RasterInput) (fault : Option String)
    (a : AnalysisState) : Bool × AnalysisState :=
  let a1 := { a with status := "processing", startedSet := true,
                     logs := a.logs ++ [("info", "Analysis started")] }
  match fault with
  | some e =>
    (false, { a1 with status := "failed", errorMessage := some e, completedSet := true,
                      logs := a1.logs ++ [("error", "Analysis failed: " ++ e)] })
  | none =>
    let dr := runDetectorsFor atype R
    let dets := dr.1
    let a2 := { a1 with logs := a1.logs ++ dr.2 ++
      (if dets.length ≠ 0
       then [("info", "Created " ++ toString dets.length ++ " threat detections")]
       else []) }
    (true, { a2 with status := "completed", completedSet := true,
                     rawDetections := dets,
                     confidenceScore := avgConfidence dets,
                     threatCount := dets.length,
                     analyzed := true,
                     analysisCount := a.analysisCount + 1,
                     logs := a2.logs ++ [("info",
                       "Analysis completed successfully. Found " ++
                         toString dets.length ++ " threats.")] })

/-! ## `ImageOptimizer.create_cog` compression policy (image_optimizer.py:141-164) -/

/-- The compression-related entries of the COG creation profile. -/
structure CogProfile where
  compress : String
  photometric : Option String
  jpegQuality : Option ℤ
  deriving DecidableEq, Repr

/-- The compression policy of `create_cog` (image_optimizer.py:149-160):
`photometric=YCbCr` and the JPEG quality are set when JPEG compression
is requested and the source has `count >= 3` bands; JPEG with fewer
bands is silently replaced by DEFLATE; other compressions pass
through. -/
def cogProfile (compression : String) (quality : ℤ) (count : ℕ) : CogProfile :=
  if compression = "JPEG" ∧ 3 ≤ count then
    { compress := "JPEG", photometric := some "YCbCr", jpegQuality := some quality }
  else if compression = "JPEG" then
    { compress := "DEFLATE", photometric := none, jpegQuality := none }
  else
    { compress := compression, photometric := none, jpegQuality := none }

/-! ## Non-finite values in `_normalize_band` (threat_detector.py:569-572)

numpy float arithmetic never raises on division by zero — it produces
NaN or infinities and keeps going.  `FV` models a double as either an
exact finite value or one of the three non-finite values, with the
IEEE rules for the operations `_normalize_band` and the fire index
use.  Finite arithmetic is kept exact; rounding is irrelevant to the
divide-by-zero pathology (`p98 - p2` is exactly zero exactly when all
percentile inputs are equal). -/

inductive FV where
  | fin (q : ℚ)
  | nan
  | inf
  | ninf
  deriving DecidableEq, Repr

namespace FV

def isFinite : FV → Bool
  | fin _ => true
  | _ => false

def neg : FV → FV
  | fin q => fin (-q)
  | nan => nan
  | inf => ninf
  | ninf => inf

def add : FV → FV → FV
  | fin a, fin b => fin (a + b)
  | fin _, inf => inf
  | inf, fin _ => inf
  | fin _, ninf => ninf
  | ninf, fin _ => ninf
  | inf, inf => inf
  | ninf, ninf => ninf
  | inf, ninf => nan
  | ninf, inf => nan
  | nan, _ => nan
  | _, nan => nan

def sub (x y : FV) : FV := add x (neg y)

/-- IEEE division with default (round-to-nearest) zero handling and a
single unsigned zero: `x / 0` is NaN for `x = 0` and a signed infinity
otherwise, matching `(band - p2) / 0.0` in numpy for the values that
occur there (the numerator `x - p2` of `_normalize_band` is `+0.0`
exactly when `x = p2`). -/
def div : FV → FV → FV
  | fin a, fin b =>
    if b = 0 then (if a = 0 then nan else if 0 < a then inf else ninf)
    else fin (a / b)
  | fin _, inf => fin 0
  | fin _, ninf => fin 0
  | inf, fin b => if 0 ≤ b then inf else ninf
  | ninf, fin b => if 0 ≤ b then ninf else inf
  | inf, inf => nan
  | inf, ninf => nan
  | ninf, inf => nan
  | ninf, ninf => nan
  | nan, _ => nan
  | _, nan => nan

/-- Model of `np.maximum`: propagates NaN. -/
def fmax : FV → FV → FV
  | fin a, fin b => fin (max a b)
  | inf, fin _ => inf
  | fin _, inf => inf
  | ninf, x => x
  | x, ninf => x
  | inf, inf => inf
  | nan, _ => nan
  | _, nan => nan

/-- Model of `np.minimum`: propagates NaN. -/
def fmin : FV → FV → FV
  | fin a, fin b => fin (min a b)
  | ninf, fin _ => ninf
  | fin _, ninf => ninf
  | inf, x => x
  | x, inf => x
  | ninf, ninf => ninf
  | nan, _ => nan
  | _, nan => nan

/-- Model of `np.clip(x, lo, hi) = minimum(maximum(x, lo), hi)`; NaN stays NaN. -/
def clip (x lo hi : FV) : FV := fmin (fmax x lo) hi

/-- IEEE `>`: any comparison with NaN is false. -/
def gt : FV → FV → Bool
  | fin a, fin b => b < a
  | inf, fin _ => true
  | inf, ninf => true
  | fin _, ninf => true
  | _, _ => false

end FV

/-- Model of `np.percentile(l, p)` with the default linear interpolation: sort,
take `h = p/100 * (n-1)`, and interpolate between the neighbouring
order statistics.  `none` models the `IndexError` numpy raises on an
empty array. -/
def npPercentile (l : List ℚ) (p : ℚ) : Option ℚ :=
  match l with
  | [] => none
  | _ :: _ =>
    let s := l.insertionSort (· ≤ ·)
    let h : ℚ := p / 100 * ((l.length : ℚ) - 1)
    let lo := (⌊h⌋).toNat
    let hi := (⌈h⌉).toNat
    some (s.getD lo 0 + (h - (lo : ℚ)) * (s.getD hi 0 - s.getD lo 0))

/-- Model of `_normalize_band` (threat_detector.py:569-572):
`p2, p98 = np.percentile(band[band != 0], (2, 98))` followed by
`np.clip((band - p2) / (p98 - p2), 0, 1)`.  The `.error` case models
the exception numpy raises when the band has no nonzero sample. -/
def normalizeBand (band : List ℚ) : Except String (List FV) :=
  let nz := band.filter (fun x => x ≠ 0)
  match npPercentile nz 2, npPercentile nz 98 with
  | some p2, some p98 =>
    .ok (band.map fun x => FV.clip (FV.div (FV.fin (x - p2)) (FV.fin (p98 - p2)))
      (FV.fin 0) (FV.fin 1))
  | _, _ => .error "zero-size array to reduction operation fmin which has no identity"

/-- The numeric pipeline of one fire window before morphology
(threat_detector.py:184-213, with the window's bands flattened): the
all-zero skip check, the three band normalizations, the fire index
`(red - green) / (red + green + 1e-10)`, the brightness, and the raw
threshold mask `(fire_index > 0.3) & (brightness > 0.5)`. -/
structure FireWindowData where
  redNorm : List FV
  greenNorm : List FV
  blueNorm : List FV
  fireIdx : List FV
  bright : List FV
  fireMask : List Bool
  deriving DecidableEq, Repr

/-- The fire index `(red - green) / (red + green + 1e-10)` over two
normalized bands. -/
def fireIndexOf (rn gn : List FV) : List FV :=
  List.zipWith
    (fun r g => FV.div (FV.sub r g) (FV.add (FV.add r g) (FV.fin (1 / 10000000000))))
    rn gn

/-- The brightness `(red + green + blue) / 3` over three normalized
bands. -/
def brightnessOf (rn gn bn : List FV) : List FV :=
  List.zipWith (fun rg b => FV.div (FV.add rg b) (FV.fin 3))
    (List.zipWith FV.add rn gn) bn

/-- The arrays of one fire window after normalization: the raw
threshold mask is `(fire_index > 0.3) & (brightness > 0.5)`. -/
def fireData (rn gn bn : List FV) : FireWindowData :=
  ⟨rn, gn, bn, fireIndexOf rn gn, brightnessOf rn gn bn,
   List.zipWith (fun fv bv => FV.gt fv (FV.fin 0.3) && FV.gt bv (FV.fin 0.5))
     (fireIndexOf rn gn) (brightnessOf rn gn bn)⟩

/-- One fire window's computation: `.ok none` is the all-zero skip
(`continue`), `.error` a raised exception (caught by the per-window
handler, which logs a warning and skips the window), `.ok (some _)`
a window that proceeds to morphology and labelling. -/
def fireWindowCompute (red green blue : List ℚ) :
    Except String (Option FireWindowData) :=
  if red.all (fun x => x == 0) && green.all (fun x => x == 0) &&
      blue.all (fun x => x == 0) then
    .ok none
  else do
    let rn ← normalizeBand red
    let gn ← normalizeBand green
    let bn ← normalizeBand blue
    .ok (some (fireData rn gn bn))

/-! ## Dedup / validation invariants of the emission step -/

/-- Two detections land in different DedupKey buckets. -/
def keyNe (d1 d2 : Detection) : Prop := detKey d1 ≠ detKey d2

theorem tryEmit_drop {st : DetState} {key : ℤ × ℤ} {ok : Bool} {d : Detection}
    (h : key ∈ st.seen) : tryEmit st key ok d = st := by
  simp [tryEmit, h]

theorem tryEmit_invalid (st : DetState) (key : ℤ × ℤ) (d : Detection) :
    tryEmit st key false d = st := by
  by_cases h : key ∈ st.seen <;> simp [tryEmit, h]

theorem tryEmit_cases (st : DetState) (key : ℤ × ℤ) (ok : Bool) (d : Detection) :
    tryEmit st key ok d = st ∨
      (key ∉ st.seen ∧ ok = true ∧
        tryEmit st key ok d = ⟨key :: st.seen, st.dets ++ [d]⟩) := by
  by_cases h : key ∈ st.seen
  · exact Or.inl (tryEmit_drop h)
  · cases ok
    · exact Or.inl (tryEmit_invalid st key d)
    · exact Or.inr ⟨h, rfl, by simp [tryEmit, h]⟩

/-- A per-candidate step respects the shared dedup state: it never
touches earlier keys or detections, and everything it appends carries a
fresh key that it records, together with a provenance property `P`. -/
def StepSpec {α : Type} (P : α → Detection → Prop) (f : DetState → α → DetState) : Prop :=
  ∀ st a, st.seen ⊆ (f st a).seen ∧
    ∃ t, (f st a).dets = st.dets ++ t ∧
      (∀ d ∈ t, detKey d ∈ (f st a).seen ∧ detKey d ∉ st.seen ∧ P a d) ∧
      t.Pairwise keyNe

theorem tryEmit_spec (st : DetState) (key : ℤ × ℤ) (ok : Bool) (d : Detection)
    (hk : detKey d = key) :
    st.seen ⊆ (tryEmit st key ok d).seen ∧
    ∃ t, (tryEmit st key ok d).dets = st.dets ++ t ∧
      (∀ d' ∈ t, detKey d' ∈ (tryEmit st key ok d).seen ∧ detKey d' ∉ st.seen ∧
        (d' = d ∧ ok = true)) ∧
      t.Pairwise keyNe := by
  rcases tryEmit_cases st key ok d with h | ⟨hmem, hok, h⟩
  · rw [h]
    exact ⟨fun _ hx => hx, [], by simp, by simp, List.Pairwise.nil⟩
  · rw [h]
    refine ⟨fun _ hx => List.mem_cons_of_mem _ hx, [d], rfl, ?_, List.pairwise_singleton _ _⟩
    intro d' hd'
    have : d' = d := by simpa using hd'
    subst this
    exact ⟨by rw [hk]; exact List.mem_cons_self _ _, by rw [hk]; exact hmem, rfl, hok⟩

/-- An identity step trivially satisfies any `StepSpec` obligation. -/
theorem idStep_spec (st : DetState) :
    st.seen ⊆ st.seen ∧
    ∃ t, st.dets = st.dets ++ t ∧
      (∀ d ∈ t, detKey d ∈ st.seen ∧ detKey d ∉ st.seen ∧ False) ∧
      t.Pairwise keyNe :=
  ⟨fun _ hx => hx, [], by simp, by simp, List.Pairwise.nil⟩

/-- Folding a `StepSpec` step over a candidate list: earlier state is
preserved, every appended detection records a key that was fresh at the
start and comes from some candidate, and the appended detections are
pairwise in distinct buckets. -/
theorem foldl_spec {α : Type} {P : α → Detection → Prop} {f : DetState → α → DetState}
    (hf : StepSpec P f) :
    ∀ (l : List α) (st : DetState),
      st.seen ⊆ (l.foldl f st).seen ∧
      ∃ t, (l.foldl f st).dets = st.dets ++ t ∧
        (∀ d ∈ t, detKey d ∈ (l.foldl f st).seen ∧ detKey d ∉ st.seen ∧
          ∃ a ∈ l, P a d) ∧
        t.Pairwise keyNe := by
  intro l
  induction l with
  | nil =>
    intro st
    exact ⟨fun _ hx => hx, [], by simp, by simp, List.Pairwise.nil⟩
  | cons a l ih =>
    intro st
    simp only [List.foldl_cons]
    obtain ⟨hs1, t1, hd1, hp1, hq1⟩ := hf st a
    obtain ⟨hs2, t2, hd2, hp2, hq2⟩ := ih (f st a)
    refine ⟨hs1.trans hs2, t1 ++ t2, ?_, ?_, ?_⟩
    · rw [hd2, hd1, List.append_assoc]
    · intro d hd
      rcases List.mem_append.mp hd with h | h
      · obtain ⟨hk1, hk2, hP⟩ := hp1 d h
        exact ⟨hs2 hk1, hk2, a, List.mem_cons_self _ _, hP⟩
      · obtain ⟨hk1, hk2, a', ha', hP⟩ := hp2 d h
        exact ⟨hk1, fun hc => hk2 (hs1 hc), a', List.mem_cons_of_mem _ ha', hP⟩
    · rw [List.pairwise_append]
      refine ⟨hq1, hq2, fun d1 h1 d2 h2 => ?_⟩
      have k1 := (hp1 d1 h1).1
      have k2 := (hp2 d2 h2).2.1
      exact fun he => k2 (he ▸ k1)

theorem detKey_fireDetectionOf (r : FireRegion) (gx gy lon lat : ℚ) :
    detKey (fireDetectionOf r gx gy lon lat) = (⌊gx / 100⌋, ⌊gy / 100⌋) := rfl

theorem detKey_damageDetectionOf (s : DamageSample) (gx gy lon lat : ℚ) :
    detKey (damageDetectionOf s gx gy lon lat) = (⌊gx / 500⌋, ⌊gy / 500⌋) := rfl

theorem detKey_vehicleDetectionOf (pts : List (ℚ × ℚ)) (cx cy lon lat : ℚ) :
    detKey (vehicleDetectionOf pts cx cy lon lat) = (⌊cx / 500⌋, ⌊cy / 500⌋) := rfl

/-- Provenance of one fire detection: a surviving component of one
window, with all emitted fields determined by the component. -/
def FireRegionP (R : RasterInput) (w : ℕ × ℕ) (r : FireRegion) (d : Detection) : Prop :=
  100 < r.area ∧
  d = fireDetectionOf r ((w.2 : ℚ) + r.centroidCol) ((w.1 : ℚ) + r.centroidRow)
        (R.geo ((w.2 : ℚ) + r.centroidCol) ((w.1 : ℚ) + r.centroidRow)).1
        (R.geo ((w.2 : ℚ) + r.centroidCol) ((w.1 : ℚ) + r.centroidRow)).2 ∧
  validCoordinates R.bounds
        (R.geo ((w.2 : ℚ) + r.centroidCol) ((w.1 : ℚ) + r.centroidRow)).1
        (R.geo ((w.2 : ℚ) + r.centroidCol) ((w.1 : ℚ) + r.centroidRow)).2 = true

theorem fireStep_spec (R : RasterInput) (y x : ℕ) :
    StepSpec (FireRegionP R (y, x)) (fun st r => fireStep R y x st r) := by
  intro st r
  by_cases ha : 100 < r.area
  · have h := tryEmit_spec st
      (⌊((x : ℚ) + r.centroidCol) / 100⌋, ⌊((y : ℚ) + r.centroidRow) / 100⌋)
      (validCoordinates R.bounds
        (R.geo ((x : ℚ) + r.centroidCol) ((y : ℚ) + r.centroidRow)).1
        (R.geo ((x : ℚ) + r.centroidCol) ((y : ℚ) + r.centroidRow)).2)
      (fireDetectionOf r ((x : ℚ) + r.centroidCol) ((y : ℚ) + r.centroidRow)
        (R.geo ((x : ℚ) + r.centroidCol) ((y : ℚ) + r.centroidRow)).1
        (R.geo ((x : ℚ) + r.centroidCol) ((y : ℚ) + r.centroidRow)).2)
      (detKey_fireDetectionOf r ((x : ℚ) + r.centroidCol) ((y : ℚ) + r.centroidRow)
        (R.geo ((x : ℚ) + r.centroidCol) ((y : ℚ) + r.centroidRow)).1
        (R.geo ((x : ℚ) + r.centroidCol) ((y : ℚ) + r.centroidRow)).2)
    obtain ⟨h1, t, h2, h3, h4⟩ := h
    refine ⟨?_, t, ?_, ?_, h4⟩
    · simpa [fireStep, ha] using h1
    · simpa [fireStep, ha] using h2
    · intro d hd
      obtain ⟨k1, k2, he, hQ⟩ := h3 d hd
      exact ⟨by simpa [fireStep, ha] using k1, k2, ha, he, hQ⟩
  · refine ⟨?_, [], ?_, by simp, List.Pairwise.nil⟩ <;> simp [fireStep, ha]

/-- Provenance of one structural-damage detection. -/
def DamageP (R : RasterInput) (w : ℕ × ℕ) (d : Detection) : Prop :=
  ∃ s, R.damageSampleOf w = some s ∧ 0.2 < s.edgeDensity ∧
    d = damageDetectionOf s ((w.2 : ℚ) + s.cx) ((w.1 : ℚ) + s.cy)
          (R.geo ((w.2 : ℚ) + s.cx) ((w.1 : ℚ) + s.cy)).1
          (R.geo ((w.2 : ℚ) + s.cx) ((w.1 : ℚ) + s.cy)).2 ∧
    validCoordinates R.bounds
          (R.geo ((w.2 : ℚ) + s.cx) ((w.1 : ℚ) + s.cy)).1
          (R.geo ((w.2 : ℚ) + s.cx) ((w.1 : ℚ) + s.cy)).2 = true

theorem damageStep_spec (R : RasterInput) :
    StepSpec (DamageP R) (fun st w => damageStep R w.1 w.2 st (R.damageSampleOf w)) := by
  intro st w
  rcases hs : R.damageSampleOf w with _ | s
  · refine ⟨?_, [], ?_, by simp, List.Pairwise.nil⟩ <;> simp [damageStep, hs]
  · by_cases ha : s.edgeDensity > 0.2
    · have h := tryEmit_spec st
        (⌊((w.2 : ℚ) + s.cx) / 500⌋, ⌊((w.1 : ℚ) + s.cy) / 500⌋)
        (validCoordinates R.bounds
          (R.geo ((w.2 : ℚ) + s.cx) ((w.1 : ℚ) + s.cy)).1
          (R.geo ((w.2 : ℚ) + s.cx) ((w.1 : ℚ) + s.cy)).2)
        (damageDetectionOf s ((w.2 : ℚ) + s.cx) ((w.1 : ℚ) + s.cy)
          (R.geo ((w.2 : ℚ) + s.cx) ((w.1 : ℚ) + s.cy)).1
          (R.geo ((w.2 : ℚ) + s.cx) ((w.1 : ℚ) + s.cy)).2)
        (detKey_damageDetectionOf s ((w.2 : ℚ) + s.cx) ((w.1 : ℚ) + s.cy)
          (R.geo ((w.2 : ℚ) + s.cx) ((w.1 : ℚ) + s.cy)).1
          (R.geo ((w.2 : ℚ) + s.cx) ((w.1 : ℚ) + s.cy)).2)
      obtain ⟨h1, t, h2, h3, h4⟩ := h
      refine ⟨?_, t, ?_, ?_, h4⟩
      · simpa [damageStep, hs, ha] using h1
      · simpa [damageStep, hs, ha] using h2
      · intro d hd
        obtain ⟨k1, k2, he, hQ⟩ := h3 d hd
        exact ⟨by simpa [damageStep, hs, ha] using k1, k2, s, hs, ha, he, hQ⟩
    · refine ⟨?_, [], ?_, by simp, List.Pairwise.nil⟩ <;> simp [damageStep, hs, ha]

/-- Provenance of one vehicle-convoy detection. -/
def ClusterP (R : RasterInput) (ptsIds : List ((ℚ × ℚ) × ℕ)) (cid : ℕ)
    (d : Detection) : Prop :=
  5 ≤ (clusterPts ptsIds cid).length ∧
  d = vehicleDetectionOf (clusterPts ptsIds cid)
        (clusterCentroid (clusterPts ptsIds cid)).1
        (clusterCentroid (clusterPts ptsIds cid)).2
        (R.geo (clusterCentroid (clusterPts ptsIds cid)).1
          (clusterCentroid (clusterPts ptsIds cid)).2).1
        (R.geo (clusterCentroid (clusterPts ptsIds cid)).1
          (clusterCentroid (clusterPts ptsIds cid)).2).2 ∧
  validCoordinates R.bounds
        (R.geo (clusterCentroid (clusterPts ptsIds cid)).1
          (clusterCentroid (clusterPts ptsIds cid)).2).1
        (R.geo (clusterCentroid (clusterPts ptsIds cid)).1
          (clusterCentroid (clusterPts ptsIds cid)).2).2 = true

theorem clusterStep_spec (R : RasterInput) (ptsIds : List ((ℚ × ℚ) × ℕ)) :
    StepSpec (ClusterP R ptsIds) (clusterStep R ptsIds) := by
  intro st cid
  by_cases ha : 5 ≤ (clusterPts ptsIds cid).length
  · have h := tryEmit_spec st
      (⌊(clusterCentroid (clusterPts ptsIds cid)).1 / 500⌋,
       ⌊(clusterCentroid (clusterPts ptsIds cid)).2 / 500⌋)
      (validCoordinates R.bounds
        (R.geo (clusterCentroid (clusterPts ptsIds cid)).1
          (clusterCentroid (clusterPts ptsIds cid)).2).1
        (R.geo (clusterCentroid (clusterPts ptsIds cid)).1
          (clusterCentroid (clusterPts ptsIds cid)).2).2)
      (vehicleDetectionOf (clusterPts ptsIds cid)
        (clusterCentroid (clusterPts ptsIds cid)).1
        (clusterCentroid (clusterPts ptsIds cid)).2
        (R.geo (clusterCentroid (clusterPts ptsIds cid)).1
          (clusterCentroid (clusterPts ptsIds cid)).2).1
        (R.geo (clusterCentroid (clusterPts ptsIds cid)).1
          (clusterCentroid (clusterPts ptsIds cid)).2).2)
      (detKey_vehicleDetectionOf (clusterPts ptsIds cid)
        (clusterCentroid (clusterPts ptsIds cid)).1
        (clusterCentroid (clusterPts ptsIds cid)).2
        (R.geo (clusterCentroid (clusterPts ptsIds cid)).1
          (clusterCentroid (clusterPts ptsIds cid)).2).1
        (R.geo (clusterCentroid (clusterPts ptsIds cid)).1
          (clusterCentroid (clusterPts ptsIds cid)).2).2)
    obtain ⟨h1, t, h2, h3, h4⟩ := h
    have ha' : 5 ≤ (List.filter (fun q => q.2 == cid) ptsIds).length := by
      simpa [clusterPts] using ha
    refine ⟨?_, t, ?_, ?_, h4⟩
    · simpa [clusterStep, clusterPts, ha'] using h1
    · simpa [clusterStep, clusterPts, ha'] using h2
    · intro d hd
      obtain ⟨k1, k2, he, hQ⟩ := h3 d hd
      exact ⟨by simpa [clusterStep, clusterPts, ha'] using k1, k2, ha, he, hQ⟩
  · have ha' : ¬ 5 ≤ (List.filter (fun q => q.2 == cid) ptsIds).length := by
      simpa [clusterPts] using ha
    refine ⟨?_, [], ?_, by simp, List.Pairwise.nil⟩ <;> simp [clusterStep, clusterPts, ha']

/-- Provenance of any detection of one fire-detector call. -/
def FireProv (R : RasterInput) (chunk : ℕ) (d : Detection) : Prop :=
  ∃ w ∈ fireWindows R.height R.width chunk, ∃ r ∈ R.fireRegionsOf w, FireRegionP R w r d

/-- Provenance of any detection of one damage-detector call. -/
def DamageProv (R : RasterInput) (d : Detection) : Prop :=
  ∃ w ∈ damageWindows R.height R.width, DamageP R w d

/-- Provenance of any detection of one vehicle-detector call. -/
def VehicleProv (R : RasterInput) (d : Detection) : Prop :=
  5 < (allKeypoints R).length ∧
  ∃ cid ∈ npUnique (R.clusterOf (allKeypoints R)),
    ClusterP R ((allKeypoints R).zip (R.clusterOf (allKeypoints R))) cid d

/-- The run-level contract of one detector call, shared by all three
detectors: `seen` grows, the detection list grows by a suffix of fresh,
pairwise-bucket-distinct, provenance-carrying detections. -/
def RunSpec (f : DetState → DetState) (Prov : Detection → Prop) : Prop :=
  ∀ st, st.seen ⊆ (f st).seen ∧
    ∃ t, (f st).dets = st.dets ++ t ∧
      (∀ d ∈ t, detKey d ∈ (f st).seen ∧ detKey d ∉ st.seen ∧ Prov d) ∧
      t.Pairwise keyNe

theorem detect_fires_spec (R : RasterInput) (chunk : ℕ) :
    RunSpec (detect_fires_explosions R chunk) (FireProv R chunk) := by
  intro st
  by_cases hb : R.bandCount < 3
  · refine ⟨?_, [], ?_, by simp, List.Pairwise.nil⟩ <;>
      simp [detect_fires_explosions, hb]
  · have houter : StepSpec (fun w d => ∃ r ∈ R.fireRegionsOf w, FireRegionP R w r d)
        (fun s w => (R.fireRegionsOf w).foldl (fun s' r => fireStep R w.1 w.2 s' r) s) := by
      intro s w
      obtain ⟨h1, t, h2, h3, h4⟩ := foldl_spec (fireStep_spec R w.1 w.2) (R.fireRegionsOf w) s
      exact ⟨h1, t, h2, h3, h4⟩
    obtain ⟨h1, t, h2, h3, h4⟩ :=
      foldl_spec houter (fireWindows R.height R.width chunk) st
    refine ⟨?_, t, ?_, ?_, h4⟩
    · simpa [detect_fires_explosions, hb] using h1
    · simpa [detect_fires_explosions, hb] using h2
    · intro d hd
      obtain ⟨k1, k2, hP⟩ := h3 d hd
      exact ⟨by simpa [detect_fires_explosions, hb] using k1, k2, hP⟩

theorem detect_damage_spec (R : RasterInput) :
    RunSpec (detect_structural_damage R) (DamageProv R) := by
  intro st
  obtain ⟨h1, t, h2, h3, h4⟩ :=
    foldl_spec (damageStep_spec R) (damageWindows R.height R.width) st
  exact ⟨h1, t, h2, h3, h4⟩

theorem detect_vehicle_spec (R : RasterInput) :
    RunSpec (detect_vehicle_concentrations R) (VehicleProv R) := by
  intro st
  by_cases hk : 5 < (allKeypoints R).length
  · obtain ⟨h1, t, h2, h3, h4⟩ :=
      foldl_spec (clusterStep_spec R ((allKeypoints R).zip (R.clusterOf (allKeypoints R))))
        (npUnique (R.clusterOf (allKeypoints R))) st
    refine ⟨?_, t, ?_, ?_, h4⟩
    · simpa [detect_vehicle_concentrations, hk] using h1
    · simpa [detect_vehicle_concentrations, hk] using h2
    · intro d hd
      obtain ⟨k1, k2, hP⟩ := h3 d hd
      exact ⟨by simpa [detect_vehicle_concentrations, hk] using k1, k2, hk, hP⟩
  · refine ⟨?_, [], ?_, by simp, List.Pairwise.nil⟩ <;>
      simp [detect_vehicle_concentrations, hk]

/-- Provenance of any detection of a full `threat_detection` run. -/
def RunProv (R : RasterInput) (d : Detection) : Prop :=
  FireProv R 2048 d ∨ DamageProv R d ∨ VehicleProv R d

/-- Composition of the three detector contracts over the shared
`processed_regions` state. -/
theorem runThreatDetection_spec (R : RasterInput) :
    RunSpec (runThreatDetection R) (RunProv R) := by
  intro st
  obtain ⟨hs1, t1, hd1, hp1, hq1⟩ := detect_fires_spec R 2048 st
  obtain ⟨hs2, t2, hd2, hp2, hq2⟩ :=
    detect_damage_spec R (detect_fires_explosions R 2048 st)
  obtain ⟨hs3, t3, hd3, hp3, hq3⟩ :=
    detect_vehicle_spec R (detect_structural_damage R (detect_fires_explosions R 2048 st))
  refine ⟨(hs1.trans hs2).trans hs3, t1 ++ (t2 ++ t3), ?_, ?_, ?_⟩
  · show (runThreatDetection R st).dets = _
    rw [runThreatDetection, hd3, hd2, hd1]
    simp [List.append_assoc]
  · intro d hd
    rcases List.mem_append.mp hd with h | h
    · obtain ⟨k1, k2, hP⟩ := hp1 d h
      exact ⟨hs3 (hs2 k1), k2, Or.inl hP⟩
    · rcases List.mem_append.mp h with h' | h'
      · obtain ⟨k1, k2, hP⟩ := hp2 d h'
        exact ⟨hs3 k1, fun hc => k2 (hs1 hc), Or.inr (Or.inl hP)⟩
      · obtain ⟨k1, k2, hP⟩ := hp3 d h'
        exact ⟨k1, fun hc => k2 (hs2 (hs1 hc)), Or.inr (Or.inr hP)⟩
  · rw [List.pairwise_append, List.pairwise_append]
    refine ⟨hq1, ⟨hq2, hq3, fun d2 h2 d3 h3 => ?_⟩, fun d1 h1 d' h' => ?_⟩
    · have k2 := (hp2 d2 h2).1
      have k3 := (hp3 d3 h3).2.1
      exact fun he => k3 (he ▸ k2)
    · rcases List.mem_append.mp h' with h'' | h''
      · have ka := (hp1 d1 h1).1
        have kb := (hp2 d' h'').2.1
        exact fun he => kb (he ▸ ka)
      · have ka := (hp1 d1 h1).1
        have kb := (hp3 d' h'').2.1
        exact fun he => kb (he ▸ hs2 ka)

/-- Unfolding of a successful `_validate_coordinates` check into the
global-range and expanded-bounding-box inequalities. -/
theorem validCoordinates_true {b : GeoBounds} {lon lat : ℚ}
    (h : validCoordinates b lon lat = true) :
    (-180 ≤ lon ∧ lon ≤ 180 ∧ -90 ≤ lat ∧ lat ≤ 90) ∧
    (b.minLon - 0.1 * (b.maxLon - b.minLon) ≤ lon ∧
      lon ≤ b.maxLon + 0.1 * (b.maxLon - b.minLon)) ∧
    (b.minLat - 0.1 * (b.maxLat - b.minLat) ≤ lat ∧
      lat ≤ b.maxLat + 0.1 * (b.maxLat - b.minLat)) := by
  unfold validCoordinates at h
  dsimp only at h
  split_ifs at h with h1 h2 h3
  exact ⟨h1, h2, h3⟩

/-- Every detection of a full run geolocates through `validate`:
fire, damage and vehicle provenances all carry the check. -/
theorem runProv_valid {R : RasterInput} {d : Detection} (h : RunProv R d) :
    validCoordinates R.bounds d.lon d.lat = true := by
  rcases h with ⟨w, _, r, _, _, hd, hv⟩ | ⟨w, _, s, _, _, hd, hv⟩ | ⟨_, cid, _, _, hd, hv⟩
  · subst hd; exact hv
  · subst hd; exact hv
  · subst hd; exact hv

/-! ## Counting the vehicle sample windows -/

theorem vehicleRowLoop_count (maxS y : ℕ) :
    ∀ (xs : List ℕ) (c : ℕ),
      (vehicleRowLoop maxS y xs c).2 = c + (vehicleRowLoop maxS y xs c).1.length ∧
      (vehicleRowLoop maxS y xs c).2 ≤ max maxS c := by
  intro xs
  induction xs with
  | nil => intro c; simp [vehicleRowLoop, Nat.le_max_right]
  | cons x xs ih =>
    intro c
    by_cases h : maxS ≤ c
    · simp [vehicleRowLoop, h, Nat.le_max_right]
    · obtain ⟨ih1, ih2⟩ := ih (c + 1)
      constructor
      · simp only [vehicleRowLoop, if_neg h, List.length_cons]
        omega
      · simp only [vehicleRowLoop, if_neg h]
        have : c + 1 ≤ maxS := Nat.succ_le_of_lt (Nat.lt_of_not_le h)
        omega

theorem vehicleLoop_count (maxS : ℕ) (xs : List ℕ) :
    ∀ (ys : List ℕ) (c : ℕ), c ≤ maxS →
      (vehicleLoop maxS xs ys c).length + c ≤ maxS := by
  intro ys
  induction ys with
  | nil => intro c hc; simpa [vehicleLoop] using hc
  | cons y ys ih =>
    intro c hc
    by_cases h : maxS ≤ c
    · simpa [vehicleLoop, h] using hc
    · obtain ⟨h1, h2⟩ := vehicleRowLoop_count maxS y xs c
      have hcm : (vehicleRowLoop maxS y xs c).2 ≤ maxS := by omega
      have := ih (vehicleRowLoop maxS y xs c).2 hcm
      simp only [vehicleLoop, if_neg h, List.length_append]
      omega

/-- The vehicle detector reads at most
`min(4, (height // 1024) * (width // 1024) // 10)` sample windows. -/
theorem vehicleSamples_le (height width : ℕ) :
    (vehicleSamples height width).length ≤
      min 4 (height / 1024 * (width / 1024) / 10) := by
  have := vehicleLoop_count (min 4 (height / 1024 * (width / 1024) / 10))
    (pyRange ((width : ℤ) - 512) 1024) (pyRange ((height : ℤ) - 512) 1024) 0
    (Nat.zero_le _)
  simpa [vehicleSamples] using this

/-! ## Detector-specific DedupKey buckets -/

theorem detKey_of_fire {d : Detection} (h : d.threat_type = "fire") :
    detKey d = (⌊d.px / 100⌋, ⌊d.py / 100⌋) := by
  simp [detKey, h]

theorem detKey_of_not_fire {d : Detection} (h : ¬ d.threat_type = "fire") :
    detKey d = (⌊d.px / 500⌋, ⌊d.py / 500⌋) := by
  simp [detKey, h]

theorem fireProv_type {R : RasterInput} {chunk : ℕ} {d : Detection}
    (h : FireProv R chunk d) : d.threat_type = "fire" := by
  obtain ⟨w, _, r, _, _, hd, _⟩ := h
  subst hd; rfl

theorem damageProv_type {R : RasterInput} {d : Detection}
    (h : DamageProv R d) : d.threat_type = "structural_damage" := by
  obtain ⟨w, _, s, _, _, hd, _⟩ := h
  subst hd; rfl

theorem vehicleProv_type {R : RasterInput} {d : Detection}
    (h : VehicleProv R d) : d.threat_type = "vehicle_convoy" := by
  obtain ⟨_, cid, _, _, hd, _⟩ := h
  subst hd; rfl

/-! ## Concrete runs used as witnesses -/

/-- A tiny 3-band raster whose single fire window contains one
surviving component; damage and vehicle sampling grids are empty. -/
def R1 : RasterInput :=
  { height := 1, width := 1, bandCount := 3
  , bounds := ⟨-1, -1, 1, 1⟩
  , geo := fun _ _ => (0, 0)
  , fireRegionsOf := fun _ => [⟨0, 0, 101, 1/2⟩]
  , damageSampleOf := fun _ => none
  , keypointsOf := fun _ => []
  , clusterOf := fun _ => [] }

/-- The single detection produced by a run on `R1`: a medium-severity
fire of 101 pixels at the origin. -/
def det1 : Detection := fireDetectionOf ⟨0, 0, 101, 1/2⟩ 0 0 0 0

theorem R1_fire : detect_fires_explosions R1 2048 ⟨[], []⟩ = ⟨[(0, 0)], [det1]⟩ := by
  have hw : fireWindows R1.height R1.width 2048 = [(0, 0)] := by
    simp [fireWindows, pyRange, R1]
    decide
  have hv : validCoordinates ⟨-1, -1, 1, 1⟩ 0 0 = true := by
    unfold validCoordinates
    norm_num
  unfold detect_fires_explosions
  rw [if_neg (by decide : ¬ R1.bandCount < 3), hw]
  simp only [List.foldl_cons, List.foldl_nil]
  show (fireStep R1 0 0 ⟨[], []⟩ ⟨0, 0, 101, 1/2⟩) = _
  unfold fireStep
  rw [if_pos (by decide : (100 : ℤ) < 101)]
  norm_num [R1, tryEmit, hv, det1]

theorem R1_damage :
    detect_structural_damage R1 ⟨[(0, 0)], [det1]⟩ = ⟨[(0, 0)], [det1]⟩ := by
  have hw : damageWindows R1.height R1.width = [] := by
    simp [damageWindows, pyRange, R1]
  unfold detect_structural_damage
  simp [hw]

theorem R1_vehicle :
    detect_vehicle_concentrations R1 ⟨[(0, 0)], [det1]⟩ = ⟨[(0, 0)], [det1]⟩ := by
  have hk : allKeypoints R1 = [] := by
    simp [allKeypoints, vehicleSamples, vehicleLoop, pyRange, R1]
  unfold detect_vehicle_concentrations
  simp [hk]

theorem runR1 : runThreatDetection R1 ⟨[], []⟩ = ⟨[(0, 0)], [det1]⟩ := by
  unfold runThreatDetection
  rw [R1_fire, R1_damage, R1_vehicle]

/-! ## C1 -/

/-- C1.  Every detection emitted by any detector of one run satisfies
the global longitude/latitude ranges and lies inside the raster's
WGS84 bounding box expanded on each axis by 10% of that axis's span;
and a candidate failing validation (`ok = false` in the emission step)
is dropped, leaving the run state unchanged, so it never appears in the
returned detection list. -/
theorem C1_detections_pass_validation :
    (∀ (R : RasterInput) (st : DetState) (d : Detection),
      d ∈ (runThreatDetection R st).dets → d ∉ st.dets →
        ((-180 ≤ d.lon ∧ d.lon ≤ 180 ∧ -90 ≤ d.lat ∧ d.lat ≤ 90) ∧
         (R.bounds.minLon - 0.1 * (R.bounds.maxLon - R.bounds.minLon) ≤ d.lon ∧
           d.lon ≤ R.bounds.maxLon + 0.1 * (R.bounds.maxLon - R.bounds.minLon)) ∧
         (R.bounds.minLat - 0.1 * (R.bounds.maxLat - R.bounds.minLat) ≤ d.lat ∧
           d.lat ≤ R.bounds.maxLat + 0.1 * (R.bounds.maxLat - R.bounds.minLat)))) ∧
    (∀ (st : DetState) (key : ℤ × ℤ) (d : Detection), tryEmit st key false d = st) := by
  constructor
  · intro R st d hmem hnew
    obtain ⟨_, t, hdets, hp, _⟩ := runThreatDetection_spec R st
    rw [hdets] at hmem
    rcases List.mem_append.mp hmem with h | h
    · exact absurd h hnew
    · exact validCoordinates_true (runProv_valid (hp d h).2.2)
  · exact tryEmit_invalid

/-- Closed instance of C1: the single fire detection of the concrete
run `R1` satisfies all the validation inequalities. -/
theorem C1_witness :
    ((-180 ≤ det1.lon ∧ det1.lon ≤ 180 ∧ -90 ≤ det1.lat ∧ det1.lat ≤ 90) ∧
     (R1.bounds.minLon - 0.1 * (R1.bounds.maxLon - R1.bounds.minLon) ≤ det1.lon ∧
      det1.lon ≤ R1.bounds.maxLon + 0.1 * (R1.bounds.maxLon - R1.bounds.minLon)) ∧
     (R1.bounds.minLat - 0.1 * (R1.bounds.maxLat - R1.bounds.minLat) ≤ det1.lat ∧
      det1.lat ≤ R1.bounds.maxLat + 0.1 * (R1.bounds.maxLat - R1.bounds.minLat))) :=
  C1_detections_pass_validation.1 R1 ⟨[], []⟩ det1
    (by rw [runR1]; exact List.mem_singleton.mpr rfl) (by simp)

/-! ## C2 -/

/-- C2.  Within one call of one detector, no two returned detections
share a DedupKey — `(floor(px / 100), floor(py / 100))` for the fire
detector and `(floor(px / 500), floor(py / 500))` for the
structural-damage and vehicle detectors — for any starting
`processed_regions` content; and a candidate whose key is already
recorded is dropped without merging (the state is unchanged). -/
theorem C2_per_detector_dedup :
    (∀ (R : RasterInput) (chunk : ℕ) (seen₀ : List (ℤ × ℤ)),
      ((detect_fires_explosions R chunk ⟨seen₀, []⟩).dets).Pairwise
        (fun d1 d2 =>
          ((⌊d1.px / 100⌋, ⌊d1.py / 100⌋) : ℤ × ℤ) ≠ (⌊d2.px / 100⌋, ⌊d2.py / 100⌋))) ∧
    (∀ (R : RasterInput) (seen₀ : List (ℤ × ℤ)),
      ((detect_structural_damage R ⟨seen₀, []⟩).dets).Pairwise
        (fun d1 d2 =>
          ((⌊d1.px / 500⌋, ⌊d1.py / 500⌋) : ℤ × ℤ) ≠ (⌊d2.px / 500⌋, ⌊d2.py / 500⌋))) ∧
    (∀ (R : RasterInput) (seen₀ : List (ℤ × ℤ)),
      ((detect_vehicle_concentrations R ⟨seen₀, []⟩).dets).Pairwise
        (fun d1 d2 =>
          ((⌊d1.px / 500⌋, ⌊d1.py / 500⌋) : ℤ × ℤ) ≠ (⌊d2.px / 500⌋, ⌊d2.py / 500⌋))) ∧
    (∀ (st : DetState) (key : ℤ × ℤ) (ok : Bool) (d : Detection),
      key ∈ st.seen → tryEmit st key ok d = st) := by
  refine ⟨?_, ?_, ?_, fun _ _ _ _ h => tryEmit_drop h⟩
  · intro R chunk seen₀
    obtain ⟨_, t, hdets, hp, hq⟩ := detect_fires_spec R chunk ⟨seen₀, []⟩
    rw [hdets]
    simp only [List.nil_append]
    refine hq.imp_of_mem ?_
    intro d1 d2 h1 h2 hne
    rw [← detKey_of_fire (fireProv_type (hp d1 h1).2.2),
      ← detKey_of_fire (fireProv_type (hp d2 h2).2.2)]
    exact hne
  · intro R seen₀
    obtain ⟨_, t, hdets, hp, hq⟩ := detect_damage_spec R ⟨seen₀, []⟩
    rw [hdets]
    simp only [List.nil_append]
    refine hq.imp_of_mem ?_
    intro d1 d2 h1 h2 hne
    rw [← detKey_of_not_fire (by rw [damageProv_type (hp d1 h1).2.2]; decide),
      ← detKey_of_not_fire (by rw [damageProv_type (hp d2 h2).2.2]; decide)]
    exact hne
  · intro R seen₀
    obtain ⟨_, t, hdets, hp, hq⟩ := detect_vehicle_spec R ⟨seen₀, []⟩
    rw [hdets]
    simp only [List.nil_append]
    refine hq.imp_of_mem ?_
    intro d1 d2 h1 h2 hne
    rw [← detKey_of_not_fire (by rw [vehicleProv_type (hp d1 h1).2.2]; decide),
      ← detKey_of_not_fire (by rw [vehicleProv_type (hp d2 h2).2.2]; decide)]
    exact hne

/-- Closed instance of C2: a candidate whose bucket is already
recorded leaves the run state unchanged (dropped, not merged). -/
theorem C2_witness :
    tryEmit ⟨[(0, 0)], []⟩ (0, 0) true det1 = ⟨[(0, 0)], []⟩ :=
  C2_per_detector_dedup.2.2.2 ⟨[(0, 0)], []⟩ (0, 0) true det1 (by decide)

/-! ## C3 -/

/-- Six identical blob centers at the origin (the vehicle detector only
clusters when strictly more than 5 centers were collected). -/
def sixZeros : List (ℚ × ℚ) := [(0, 0), (0, 0), (0, 0), (0, 0), (0, 0), (0, 0)]

/-- A single-band raster (fire detector returns immediately) whose one
damage sample fires at the origin and whose one vehicle sample yields
six blob centers clustering at the origin — the damage detection and
the vehicle cluster share DedupKey bucket `(0, 0)`. -/
def R3 : RasterInput :=
  { height := 4096, width := 4096, bandCount := 1
  , bounds := ⟨-1, -1, 1, 1⟩
  , geo := fun _ _ => (0, 0)
  , fireRegionsOf := fun _ => []
  , damageSampleOf := fun w => if w = (0, 0) then some ⟨1/2, 0, 0⟩ else none
  , keypointsOf := fun w => if w = (0, 0) then sixZeros else []
  , clusterOf := fun l => l.map fun _ => 1 }

/-- The damage detection emitted on `R3`. -/
def detD : Detection := damageDetectionOf ⟨1/2, 0, 0⟩ 0 0 0 0

/-- The vehicle detection emitted on `R3` when the vehicle detector
starts from a fresh dedup state. -/
def detV : Detection := vehicleDetectionOf sixZeros 0 0 0 0

theorem valid00 : validCoordinates ⟨-1, -1, 1, 1⟩ 0 0 = true := by
  unfold validCoordinates
  norm_num

theorem R3_fire (st : DetState) : detect_fires_explosions R3 2048 st = st := by
  unfold detect_fires_explosions
  rw [if_pos (by decide : R3.bandCount < 3)]

theorem R3_damage : detect_structural_damage R3 ⟨[], []⟩ = ⟨[(0, 0)], [detD]⟩ := by
  have hw : damageWindows R3.height R3.width =
      [(0, 0), (0, 2048), (2048, 0), (2048, 2048)] := by
    simp [damageWindows, pyRange, R3]
    decide
  unfold detect_structural_damage
  rw [hw]
  simp only [List.foldl_cons, List.foldl_nil]
  norm_num [R3, damageStep, tryEmit, valid00, detD]

theorem R3_kps : allKeypoints R3 = sixZeros := by
  have hs : vehicleSamples R3.height R3.width = [(0, 0)] := by
    simp [vehicleSamples, R3, pyRange]
    decide
  unfold allKeypoints
  rw [hs]
  simp [R3, sixZeros]

theorem R3_ids : R3.clusterOf sixZeros = [1, 1, 1, 1, 1, 1] := by
  simp [R3, sixZeros]

theorem R3_pts : clusterPts (sixZeros.zip [1, 1, 1, 1, 1, 1]) 1 = sixZeros := by
  simp [clusterPts, sixZeros]

theorem sixZeros_centroid : clusterCentroid sixZeros = (0, 0) := by
  simp [clusterCentroid, sixZeros]

theorem R3_vehicle_shared :
    detect_vehicle_concentrations R3 ⟨[(0, 0)], [detD]⟩ = ⟨[(0, 0)], [detD]⟩ := by
  unfold detect_vehicle_concentrations
  rw [R3_kps]
  rw [if_pos (by decide : 5 < sixZeros.length)]
  rw [R3_ids]
  dsimp only
  have hun : npUnique [1, 1, 1, 1, 1, 1] = [1] := by decide
  rw [hun]
  simp only [List.foldl_cons, List.foldl_nil]
  unfold clusterStep
  rw [R3_pts]
  rw [if_pos (by decide : 5 ≤ sixZeros.length)]
  rw [sixZeros_centroid]
  norm_num [R3, tryEmit]

theorem R3_vehicle_fresh :
    detect_vehicle_concentrations R3 ⟨[], []⟩ = ⟨[(0, 0)], [detV]⟩ := by
  unfold detect_vehicle_concentrations
  rw [R3_kps]
  rw [if_pos (by decide : 5 < sixZeros.length)]
  rw [R3_ids]
  dsimp only
  have hun : npUnique [1, 1, 1, 1, 1, 1] = [1] := by decide
  rw [hun]
  simp only [List.foldl_cons, List.foldl_nil]
  unfold clusterStep
  rw [R3_pts]
  rw [if_pos (by decide : 5 ≤ sixZeros.length)]
  rw [sixZeros_centroid]
  norm_num [R3, tryEmit, valid00, detV]

/-- C3 as stated is false on the code: `processed_regions` is one
shared set per `ThreatDetector` instance, and `process` runs all three
detectors on one instance.  On `R3`, the damage detector records bucket
`(0, 0)`; the vehicle detector's 6-member cluster at the origin is then
dropped in the shared run, although the identical vehicle detector call
emits it from a fresh state — so a DedupKey recorded by one detector
does suppress another detector's detection in the same run. -/
theorem C3_counterexample :
    (runThreatDetection R3 ⟨[], []⟩).dets.map (fun d => d.threat_type) =
      ["structural_damage"] ∧
    (detect_vehicle_concentrations R3 ⟨[], []⟩).dets.map (fun d => d.threat_type) =
      ["vehicle_convoy"] ∧
    detKey detD = detKey detV := by
  refine ⟨?_, ?_, ?_⟩
  · unfold runThreatDetection
    rw [R3_fire, R3_damage, R3_vehicle_shared]
    rfl
  · rw [R3_vehicle_fresh]
    rfl
  · norm_num [detKey, detD, detV, damageDetectionOf, vehicleDetectionOf]

/-- C3 amended.  Dedup state is shared across the detectors of one run:
`runThreatDetection` threads one `processed_regions` set through fire,
damage and vehicles in order; the set only grows from one detector to
the next, and any candidate from any detector whose key is already in
the shared set is dropped.  (The set is per run — each `process` call
opens a fresh `ThreatDetector` — but it is not per detector.) -/
theorem C3_shared_dedup_state :
    (∀ (R : RasterInput) (st : DetState),
      runThreatDetection R st =
        detect_vehicle_concentrations R
          (detect_structural_damage R (detect_fires_explosions R 2048 st))) ∧
    (∀ (R : RasterInput) (st : DetState),
      st.seen ⊆ (detect_fires_explosions R 2048 st).seen ∧
      (detect_fires_explosions R 2048 st).seen ⊆
        (detect_structural_damage R (detect_fires_explosions R 2048 st)).seen ∧
      (detect_structural_damage R (detect_fires_explosions R 2048 st)).seen ⊆
        (runThreatDetection R st).seen) ∧
    (∀ (st : DetState) (key : ℤ × ℤ) (ok : Bool) (d : Detection),
      key ∈ st.seen → tryEmit st key ok d = st) := by
  refine ⟨fun R st => rfl, fun R st => ?_, fun _ _ _ _ h => tryEmit_drop h⟩
  exact ⟨(detect_fires_spec R 2048 st).1,
    (detect_damage_spec R (detect_fires_explosions R 2048 st)).1,
    (detect_vehicle_spec R
      (detect_structural_damage R (detect_fires_explosions R 2048 st))).1⟩

/-- Closed instance of C3 amended: a vehicle candidate in a bucket
recorded earlier in the shared run state is dropped. -/
theorem C3_witness :
    tryEmit ⟨[(5, 7)], [detD]⟩ (5, 7) true detV = ⟨[(5, 7)], [detD]⟩ :=
  C3_shared_dedup_state.2.2 ⟨[(5, 7)], [detD]⟩ (5, 7) true detV (by decide)

/-! ## C4 -/

/-- C4 as stated is false on the code: `create_cog` applies JPEG/YCbCr
whenever the raster has **at least** 3 bands (`count >= 3`), not only
for exactly 3; a 4-band raster with JPEG requested keeps JPEG/YCbCr. -/
theorem C4_counterexample :
    cogProfile "JPEG" 85 4 =
      { compress := "JPEG", photometric := some "YCbCr", jpegQuality := some 85 } ∧
    (4 : ℕ) ≠ 3 :=
  ⟨rfl, by decide⟩

/-- C4 amended.  A JPEG request applies JPEG-family compression
(YCbCr photometric with the given quality) exactly when the raster has
at least 3 bands; for a 1- or 2-band raster the profile silently
substitutes lossless DEFLATE instead of failing. -/
theorem C4_jpeg_band_policy (q : ℤ) (count : ℕ) :
    (3 ≤ count → cogProfile "JPEG" q count =
      { compress := "JPEG", photometric := some "YCbCr", jpegQuality := some q }) ∧
    (count = 1 ∨ count = 2 → cogProfile "JPEG" q count =
      { compress := "DEFLATE", photometric := none, jpegQuality := none }) := by
  constructor
  · intro h
    unfold cogProfile
    rw [if_pos ⟨rfl, h⟩]
  · intro h
    have h3 : ¬ ("JPEG" = "JPEG" ∧ 3 ≤ count) := by
      rcases h with rfl | rfl <;> simp
    unfold cogProfile
    rw [if_neg h3, if_pos rfl]

/-- Closed instance of C4 amended: 3 bands keep JPEG/YCbCr, 2 bands
fall back to DEFLATE. -/
theorem C4_witness :
    cogProfile "JPEG" 85 3 =
      { compress := "JPEG", photometric := some "YCbCr", jpegQuality := some 85 } ∧
    cogProfile "JPEG" 85 2 =
      { compress := "DEFLATE", photometric := none, jpegQuality := none } :=
  ⟨(C4_jpeg_band_policy 85 3).1 (by decide), (C4_jpeg_band_policy 85 2).2 (Or.inr rfl)⟩

/-! ## C5 -/

/-- C5.  Every `process` invocation ends in a terminal status: with no
unrecoverable exception it returns `True` with status `completed` and
`completed_at` recorded; with an unrecoverable exception carrying text
`e` it returns `False` with status `failed`, the error text stored and
`completed_at` still recorded.  In all cases the final status is
`completed` or `failed`. -/
theorem C5_terminal_status (atype : String) (R : RasterInput) (a : AnalysisState)
    (e : String) :
    ((process atype R none a).1 = true ∧
     (process atype R none a).2.status = "completed" ∧
     (process atype R none a).2.completedSet = true) ∧
    ((process atype R (some e) a).1 = false ∧
     (process atype R (some e) a).2.status = "failed" ∧
     (process atype R (some e) a).2.errorMessage = some e ∧
     (process atype R (some e) a).2.completedSet = true) ∧
    (∀ fault, (process atype R fault a).2.status = "completed" ∨
      (process atype R fault a).2.status = "failed") := by
  refine ⟨⟨rfl, rfl, rfl⟩, ⟨rfl, rfl, rfl, rfl⟩, ?_⟩
  intro fault
  cases fault with
  | none => exact Or.inl rfl
  | some e => exact Or.inr rfl

/-! ## C6 -/

/-- C6.  An analysis type other than `threat_detection` and
`object_recognition` runs no detector (the result does not depend on
the raster at all), writes exactly one warning log entry, and
completes successfully with no detections, threat count 0 and
aggregate confidence 0. -/
theorem C6_unknown_type (atype : String) (R : RasterInput) (a : AnalysisState)
    (h1 : atype ≠ "threat_detection") (h2 : atype ≠ "object_recognition") :
    (process atype R none a).1 = true ∧
    (process atype R none a).2.status = "completed" ∧
    (process atype R none a).2.threatCount = 0 ∧
    (process atype R none a).2.confidenceScore = 0 ∧
    (process atype R none a).2.rawDetections = [] ∧
    (((process atype R none a).2.logs.drop a.logs.length).countP
      (fun en => en.1 == "warning")) = 1 ∧
    (∀ R' : RasterInput, process atype R none a = process atype R' none a) := by
  have hrun : runDetectorsFor atype R =
      ([], [("warning", "Unknown analysis type: " ++ atype)]) := by
    unfold runDetectorsFor
    rw [if_neg h1, if_neg h2]
  refine ⟨rfl, rfl, ?_, ?_, ?_, ?_, ?_⟩
  · show ((runDetectorsFor atype R).1).length = 0
    rw [hrun]
    rfl
  · show avgConfidence (runDetectorsFor atype R).1 = 0
    rw [hrun]
    rfl
  · show (runDetectorsFor atype R).1 = []
    rw [hrun]
  · simp only [process]
    rw [hrun]
    simp [List.countP_cons, List.countP_nil, List.append_assoc, List.drop_left]
  · intro R'
    unfold process
    rw [show runDetectorsFor atype R = runDetectorsFor atype R' by
      unfold runDetectorsFor
      rw [if_neg h1, if_neg h2, if_neg h1, if_neg h2]]

/-- Closed instance of C6 at the unknown analysis type `"change_detection"`. -/
theorem C6_witness :
    (process "change_detection" R1 none
      ⟨"pending", false, false, none, 0, 0, [], false, 0, []⟩).1 = true ∧
    (process "change_detection" R1 none
      ⟨"pending", false, false, none, 0, 0, [], false, 0, []⟩).2.status = "completed" ∧
    (process "change_detection" R1 none
      ⟨"pending", false, false, none, 0, 0, [], false, 0, []⟩).2.threatCount = 0 ∧
    (process "change_detection" R1 none
      ⟨"pending", false, false, none, 0, 0, [], false, 0, []⟩).2.confidenceScore = 0 ∧
    (process "change_detection" R1 none
      ⟨"pending", false, false, none, 0, 0, [], false, 0, []⟩).2.rawDetections = [] ∧
    (((process "change_detection" R1 none
      ⟨"pending", false, false, none, 0, 0, [], false, 0, []⟩).2.logs.drop
        ([] : List (String × String)).length).countP
          (fun en => en.1 == "warning")) = 1 ∧
    (∀ R' : RasterInput,
      process "change_detection" R1 none
        ⟨"pending", false, false, none, 0, 0, [], false, 0, []⟩ =
      process "change_detection" R' none
        ⟨"pending", false, false, none, 0, 0, [], false, 0, []⟩) :=
  C6_unknown_type "change_detection" R1
    ⟨"pending", false, false, none, 0, 0, [], false, 0, []⟩
    (by decide) (by decide)

/-! ## C7 -/

/-- C7.  Every detection the fire detector emits comes from a surviving
connected component (pixel area > 100) of some window, with
`confidence = min(0.6 + mean_fire_index * 0.4, 0.99)` and severity
determined by `score = area/1000 + mean_fire_index`: `critical` above
2.0, `high` above 1.0, `medium` above 0.5, else `low`. -/
theorem C7_fire_confidence_severity (R : RasterInput) (chunk : ℕ) (st : DetState)
    (d : Detection) (hmem : d ∈ (detect_fires_explosions R chunk st).dets)
    (hnew : d ∉ st.dets) :
    ∃ w ∈ fireWindows R.height R.width chunk, ∃ r ∈ R.fireRegionsOf w,
      100 < r.area ∧
      d.confidence = min (0.6 + r.avgFireIndex * 0.4) 0.99 ∧
      d.severity =
        (if (r.area : ℚ) / 1000 + r.avgFireIndex > 2.0 then "critical"
         else if (r.area : ℚ) / 1000 + r.avgFireIndex > 1.0 then "high"
         else if (r.area : ℚ) / 1000 + r.avgFireIndex > 0.5 then "medium"
         else "low") := by
  obtain ⟨_, t, hdets, hp, _⟩ := detect_fires_spec R chunk st
  rw [hdets] at hmem
  rcases List.mem_append.mp hmem with h | h
  · exact absurd h hnew
  · obtain ⟨w, hw, r, hr, harea, hd, _⟩ := (hp d h).2.2
    subst hd
    exact ⟨w, hw, r, hr, harea, rfl, rfl⟩

/-- Closed instance of C7 at the concrete run on `R1`. -/
theorem C7_witness :
    ∃ w ∈ fireWindows R1.height R1.width 2048, ∃ r ∈ R1.fireRegionsOf w,
      100 < r.area ∧
      det1.confidence = min (0.6 + r.avgFireIndex * 0.4) 0.99 ∧
      det1.severity =
        (if (r.area : ℚ) / 1000 + r.avgFireIndex > 2.0 then "critical"
         else if (r.area : ℚ) / 1000 + r.avgFireIndex > 1.0 then "high"
         else if (r.area : ℚ) / 1000 + r.avgFireIndex > 0.5 then "medium"
         else "low") :=
  C7_fire_confidence_severity R1 2048 ⟨[], []⟩ det1
    (by rw [R1_fire]; exact List.mem_singleton.mpr rfl) (by simp)

/-! ## C8 -/

/-- C8.  For any raster size, the vehicle detector reads at most
`min(4, (height // 1024) * (width // 1024) // 10)` sample windows —
in particular never more than 4. -/
theorem C8_vehicle_sample_cap (height width : ℕ) :
    (vehicleSamples height width).length ≤
      min 4 (height / 1024 * (width / 1024) / 10) ∧
    (vehicleSamples height width).length ≤ 4 :=
  ⟨vehicleSamples_le height width,
    le_trans (vehicleSamples_le height width) (min_le_left _ _)⟩

/-! ## C9 -/

/-- The zipped point/label array `zip(points, clusters)` of one vehicle
detection run. -/
def clusterAssign (R : RasterInput) : List ((ℚ × ℚ) × ℕ) :=
  (allKeypoints R).zip (R.clusterOf (allKeypoints R))

/-- The detection built for cluster label `cid` of one vehicle run. -/
def clusterDetOf (R : RasterInput) (cid : ℕ) : Detection :=
  vehicleDetectionOf (clusterPts (clusterAssign R) cid)
    (clusterCentroid (clusterPts (clusterAssign R) cid)).1
    (clusterCentroid (clusterPts (clusterAssign R) cid)).2
    (R.geo (clusterCentroid (clusterPts (clusterAssign R) cid)).1
      (clusterCentroid (clusterPts (clusterAssign R) cid)).2).1
    (R.geo (clusterCentroid (clusterPts (clusterAssign R) cid)).1
      (clusterCentroid (clusterPts (clusterAssign R) cid)).2).2

/-- The DedupKey bucket of cluster `cid`'s centroid. -/
def clusterKeyOf (R : RasterInput) (cid : ℕ) : ℤ × ℤ :=
  (⌊(clusterCentroid (clusterPts (clusterAssign R) cid)).1 / 500⌋,
   ⌊(clusterCentroid (clusterPts (clusterAssign R) cid)).2 / 500⌋)

/-- Whether cluster `cid`'s geolocated centroid passes
`_validate_coordinates`. -/
def clusterValid (R : RasterInput) (cid : ℕ) : Bool :=
  validCoordinates R.bounds
    (R.geo (clusterCentroid (clusterPts (clusterAssign R) cid)).1
      (clusterCentroid (clusterPts (clusterAssign R) cid)).2).1
    (R.geo (clusterCentroid (clusterPts (clusterAssign R) cid)).1
      (clusterCentroid (clusterPts (clusterAssign R) cid)).2).2

theorem clusterStep_eq (R : RasterInput) (st : DetState) (cid : ℕ)
    (h : 5 ≤ (clusterPts (clusterAssign R) cid).length) :
    clusterStep R (clusterAssign R) st cid =
      tryEmit st (clusterKeyOf R cid) (clusterValid R cid) (clusterDetOf R cid) := by
  unfold clusterStep
  rw [if_pos h]
  rfl

/-- Five identical blob centers: one short of the clustering gate. -/
def fiveZeros : List (ℚ × ℚ) := [(0, 0), (0, 0), (0, 0), (0, 0), (0, 0)]

/-- Same raster as `R3` but the single vehicle sample yields exactly
five blob centers. -/
def R5 : RasterInput :=
  { R3 with keypointsOf := fun w => if w = (0, 0) then fiveZeros else [] }

theorem R5_kps : allKeypoints R5 = fiveZeros := by
  have hs : vehicleSamples R5.height R5.width = [(0, 0)] := by
    simp [vehicleSamples, R5, R3, pyRange]
    decide
  unfold allKeypoints
  rw [hs]
  simp [R5, R3, fiveZeros]

theorem R5_pts : clusterPts (clusterAssign R5) 1 = fiveZeros := by
  unfold clusterAssign
  rw [R5_kps]
  simp [clusterPts, R5, R3, fiveZeros]

/-- C9 as stated is false on the code: clustering only happens when
**strictly more than 5** blob centers were collected
(`if len(all_keypoints) > 5`).  On `R5` exactly five centers are
collected; they form one 5-member cluster whose centroid passes
validation and whose bucket is fresh, yet the detector emits nothing
and returns its input state unchanged. -/
theorem C9_counterexample :
    detect_vehicle_concentrations R5 ⟨[], []⟩ = ⟨[], []⟩ ∧
    (allKeypoints R5).length = 5 ∧
    5 ≤ (clusterPts (clusterAssign R5) 1).length ∧
    clusterValid R5 1 = true := by
  refine ⟨?_, ?_, ?_, ?_⟩
  · unfold detect_vehicle_concentrations
    rw [R5_kps]
    rw [if_neg (by decide : ¬ 5 < fiveZeros.length)]
  · rw [R5_kps]
    rfl
  · rw [R5_pts]
    decide
  · unfold clusterValid
    rw [R5_pts]
    have hc : clusterCentroid fiveZeros = (0, 0) := by
      simp [clusterCentroid, fiveZeros]
    rw [hc]
    exact valid00

/-- C9 amended.  The vehicle detector clusters the collected blob
centers only when more than 5 were collected (with 5 or fewer it
returns unchanged, emitting nothing); in that case every cluster with
at least 5 members whose geolocated centroid passes validation and
whose centroid bucket is not in the dedup state reached when the
cluster is processed produces a detection at the cluster centroid with
`vehicle_count` equal to the cluster size. -/
theorem C9_cluster_gate_and_emission :
    (∀ (R : RasterInput) (st : DetState),
      (allKeypoints R).length ≤ 5 → detect_vehicle_concentrations R st = st) ∧
    (∀ (R : RasterInput) (st : DetState) (pre post : List ℕ) (cid : ℕ),
      5 < (allKeypoints R).length →
      npUnique (R.clusterOf (allKeypoints R)) = pre ++ cid :: post →
      5 ≤ (clusterPts (clusterAssign R) cid).length →
      clusterValid R cid = true →
      clusterKeyOf R cid ∉ (pre.foldl (clusterStep R (clusterAssign R)) st).seen →
      clusterDetOf R cid ∈ (detect_vehicle_concentrations R st).dets) ∧
    (∀ (pts : List (ℚ × ℚ)) (cx cy lon lat : ℚ),
      (vehicleDetectionOf pts cx cy lon lat).vehicle_count = some pts.length ∧
      (vehicleDetectionOf pts cx cy lon lat).px = cx ∧
      (vehicleDetectionOf pts cx cy lon lat).py = cy) := by
  refine ⟨?_, ?_, fun pts cx cy lon lat => ⟨rfl, rfl, rfl⟩⟩
  · intro R st h
    unfold detect_vehicle_concentrations
    rw [if_neg (by omega : ¬ 5 < (allKeypoints R).length)]
  · intro R st pre post cid hk hsplit hlen hvalid hfresh
    unfold detect_vehicle_concentrations
    rw [if_pos hk]
    show clusterDetOf R cid ∈
      ((npUnique (R.clusterOf (allKeypoints R))).foldl
        (clusterStep R (clusterAssign R)) st).dets
    rw [hsplit, List.foldl_append, List.foldl_cons]
    have hstep : clusterStep R (clusterAssign R)
        (pre.foldl (clusterStep R (clusterAssign R)) st) cid =
        ⟨clusterKeyOf R cid ::
          (pre.foldl (clusterStep R (clusterAssign R)) st).seen,
         (pre.foldl (clusterStep R (clusterAssign R)) st).dets ++
           [clusterDetOf R cid]⟩ := by
      rw [clusterStep_eq R _ cid hlen]
      unfold tryEmit
      rw [if_neg hfresh, hvalid, if_pos rfl]
    rw [hstep]
    obtain ⟨_, t, hdets, _, _⟩ := foldl_spec (clusterStep_spec R (clusterAssign R)) post
      ⟨clusterKeyOf R cid ::
        (pre.foldl (clusterStep R (clusterAssign R)) st).seen,
       (pre.foldl (clusterStep R (clusterAssign R)) st).dets ++ [clusterDetOf R cid]⟩
    rw [hdets]
    exact List.mem_append_left _ (List.mem_append_right _ (List.mem_singleton.mpr rfl))

/-- Closed instances of C9 amended: on `R5` (five centers) the
detector emits nothing; on `R3` (six centers forming one 6-member
cluster at a fresh, valid centroid) the cluster's detection is in the
returned list. -/
theorem C9_witness :
    detect_vehicle_concentrations R5 ⟨[], []⟩ = ⟨[], []⟩ ∧
    clusterDetOf R3 1 ∈ (detect_vehicle_concentrations R3 ⟨[], []⟩).dets := by
  constructor
  · exact C9_cluster_gate_and_emission.1 R5 ⟨[], []⟩ (by rw [R5_kps]; decide)
  · refine C9_cluster_gate_and_emission.2.1 R3 ⟨[], []⟩ [] [] 1 ?_ ?_ ?_ ?_ ?_
    · rw [R3_kps]
      decide
    · rw [R3_kps, R3_ids]
      decide
    · unfold clusterAssign
      rw [R3_kps, R3_ids, R3_pts]
      decide
    · unfold clusterValid clusterAssign
      rw [R3_kps, R3_ids, R3_pts, sixZeros_centroid]
      exact valid00
    · simp only [List.foldl_nil]
      exact List.not_mem_nil _

/-! ## C10 -/

theorem FV.sub_nan_left (y : FV) : FV.sub FV.nan y = FV.nan := by
  cases y <;> rfl

theorem FV.div_nan_left (y : FV) : FV.div FV.nan y = FV.nan := by
  cases y <;> rfl

theorem FV.gt_nan_left (y : FV) : FV.gt FV.nan y = false := by
  cases y <;> rfl

theorem FV.clip_zero_div_zero :
    FV.clip (FV.div (FV.fin 0) (FV.fin 0)) (FV.fin 0) (FV.fin 1) = FV.nan := by
  have hd : FV.div (FV.fin 0) (FV.fin 0) = FV.nan := by
    simp [FV.div]
  rw [hd]
  rfl

/-- Value of `np.percentile` on a nonempty constant array: that constant, for
any percentile in [0, 100]. -/
theorem npPercentile_const {l : List ℚ} {v p : ℚ} (hne : l ≠ [])
    (hall : ∀ x ∈ l, x = v) (hp0 : 0 ≤ p) (hp1 : p ≤ 100) :
    npPercentile l p = some v := by
  cases l with
  | nil => exact absurd rfl hne
  | cons a l' =>
    simp only [npPercentile]
    have hperm := List.perm_insertionSort (· ≤ ·) (a :: l')
    have hslen : ((a :: l').insertionSort (· ≤ ·)).length = (a :: l').length :=
      hperm.length_eq
    have hmem : ∀ x ∈ (a :: l').insertionSort (· ≤ ·), x = v :=
      fun x hx => hall x (hperm.mem_iff.mp hx)
    have hn1 : 1 ≤ (a :: l').length := by simp
    have h0 : 0 ≤ p / 100 * (((a :: l').length : ℚ) - 1) := by
      apply mul_nonneg (div_nonneg hp0 (by norm_num))
      have : (1 : ℚ) ≤ ((a :: l').length : ℚ) := by exact_mod_cast hn1
      linarith
    have h1 : p / 100 * (((a :: l').length : ℚ) - 1) ≤ ((a :: l').length : ℚ) - 1 := by
      have hple : p / 100 ≤ 1 := (div_le_one (by norm_num)).mpr hp1
      have hnn : (0 : ℚ) ≤ ((a :: l').length : ℚ) - 1 := by
        have : (1 : ℚ) ≤ ((a :: l').length : ℚ) := by exact_mod_cast hn1
        linarith
      exact mul_le_of_le_one_left hnn hple
    have hcast : (((a :: l').length : ℚ) - 1) = (((a :: l').length : ℤ) - 1 : ℤ) := by
      push_cast
      ring
    have hlo : (⌊p / 100 * (((a :: l').length : ℚ) - 1)⌋).toNat < (a :: l').length := by
      have h2 : p / 100 * (((a :: l').length : ℚ) - 1) ≤
          ((((a :: l').length : ℤ) - 1 : ℤ) : ℚ) := by
        rw [← hcast]
        exact h1
      have hfl := Int.floor_le_floor h2
      have hic : (⌊((((a :: l').length : ℤ) - 1 : ℤ) : ℚ)⌋ : ℤ) =
          ((a :: l').length : ℤ) - 1 := Int.floor_intCast _
      omega
    have hhi : (⌈p / 100 * (((a :: l').length : ℚ) - 1)⌉).toNat < (a :: l').length := by
      have hcl : ⌈p / 100 * (((a :: l').length : ℚ) - 1)⌉ ≤ ((a :: l').length : ℤ) - 1 :=
        Int.ceil_le.mpr (by rw [← hcast]; exact h1)
      omega
    have e1 : ((a :: l').insertionSort (· ≤ ·)).getD
        (⌊p / 100 * (((a :: l').length : ℚ) - 1)⌋).toNat 0 = v := by
      rw [List.getD_eq_getElem _ 0 (by rw [hslen]; exact hlo)]
      exact hmem _ (List.getElem_mem _)
    have e2 : ((a :: l').insertionSort (· ≤ ·)).getD
        (⌈p / 100 * (((a :: l').length : ℚ) - 1)⌉).toNat 0 = v := by
      rw [List.getD_eq_getElem _ 0 (by rw [hslen]; exact hhi)]
      exact hmem _ (List.getElem_mem _)
    rw [e1, e2]
    ring_nf

/-- The function `npPercentile` never fails on a nonempty array. -/
theorem npPercentile_isSome {l : List ℚ} (p : ℚ) (hne : l ≠ []) :
    ∃ q, npPercentile l p = some q := by
  cases l with
  | nil => exact absurd rfl hne
  | cons a l' => exact ⟨_, rfl⟩

/-- Model fact: `_normalize_band` succeeds on any band with a nonzero sample,
returning one value per input sample. -/
theorem normalizeBand_ok {band : List ℚ} (h : ∃ y ∈ band, y ≠ 0) :
    ∃ l, normalizeBand band = .ok l ∧ l.length = band.length := by
  obtain ⟨y, hy, hy0⟩ := h
  have hne : band.filter (fun x => x ≠ 0) ≠ [] :=
    List.ne_nil_of_mem (List.mem_filter.mpr ⟨hy, by simpa using hy0⟩)
  obtain ⟨q2, hq2⟩ := npPercentile_isSome 2 hne
  obtain ⟨q98, hq98⟩ := npPercentile_isSome 98 hne
  refine ⟨band.map (fun x =>
      FV.clip (FV.div (FV.fin (x - q2)) (FV.fin (q98 - q2))) (FV.fin 0) (FV.fin 1)),
    ?_, List.length_map _ _⟩
  unfold normalizeBand
  dsimp only
  rw [hq2, hq98]

/-- Behaviour of `_normalize_band` on a band whose nonzero samples all equal `v`:
the 2nd and 98th percentiles are both `v`, the stretch divides by the
zero range `v - v`, no exception is raised, and the output contains
NaN (at every sample equal to `v`). -/
theorem normalizeBand_const {band : List ℚ} {v : ℚ} (hex : v ∈ band) (hv0 : v ≠ 0)
    (hconst : ∀ x ∈ band, x ≠ 0 → x = v) :
    npPercentile (band.filter (fun x => x ≠ 0)) 2 = some v ∧
    npPercentile (band.filter (fun x => x ≠ 0)) 98 = some v ∧
    normalizeBand band =
      .ok (band.map fun x =>
        FV.clip (FV.div (FV.fin (x - v)) (FV.fin (v - v))) (FV.fin 0) (FV.fin 1)) ∧
    FV.nan ∈ (band.map fun x =>
        FV.clip (FV.div (FV.fin (x - v)) (FV.fin (v - v))) (FV.fin 0) (FV.fin 1)) := by
  have hne : band.filter (fun x => x ≠ 0) ≠ [] :=
    List.ne_nil_of_mem (List.mem_filter.mpr ⟨hex, by simpa using hv0⟩)
  have hall : ∀ x ∈ band.filter (fun x => x ≠ 0), x = v := by
    intro x hx
    obtain ⟨hxb, hx0⟩ := List.mem_filter.mp hx
    exact hconst x hxb (by simpa using hx0)
  have hq2 : npPercentile (band.filter (fun x => x ≠ 0)) 2 = some v :=
    npPercentile_const hne hall (by norm_num) (by norm_num)
  have hq98 : npPercentile (band.filter (fun x => x ≠ 0)) 98 = some v :=
    npPercentile_const hne hall (by norm_num) (by norm_num)
  refine ⟨hq2, hq98, ?_, ?_⟩
  · unfold normalizeBand
    dsimp only
    rw [hq2, hq98]
  · have hval : FV.clip (FV.div (FV.fin (v - v)) (FV.fin (v - v))) (FV.fin 0) (FV.fin 1)
        = FV.nan := by
      rw [sub_self]
      exact FV.clip_zero_div_zero
    rw [← hval]
    exact List.mem_map_of_mem _ hex

theorem fireIndexOf_length (rn gn : List FV) :
    (fireIndexOf rn gn).length = min rn.length gn.length := by
  simp [fireIndexOf]

theorem brightnessOf_length (rn gn bn : List FV) :
    (brightnessOf rn gn bn).length = min (min rn.length gn.length) bn.length := by
  simp [brightnessOf]

/-- C10 amended.  If a window passes the all-zero skip check, each band
has at least one nonzero sample, and the red band's nonzero samples all
equal one value `v`, then `_normalize_band` computes equal 2nd and 98th
percentiles (`v`), the stretch divides by the zero range, the
normalized red band contains NaN, the NaN flows into the fire index and
makes the corresponding raw mask entry `false`, and no exception is
raised — the window is not skipped. -/
theorem C10_degenerate_normalize_nan (v : ℚ) (red green blue : List ℚ)
    (hlen1 : green.length = red.length) (hlen2 : blue.length = red.length)
    (hv : v ∈ red) (hv0 : v ≠ 0) (hconst : ∀ x ∈ red, x ≠ 0 → x = v)
    (hg : ∃ y ∈ green, y ≠ 0) (hb : ∃ z ∈ blue, z ≠ 0) :
    npPercentile (red.filter (fun x => x ≠ 0)) 2 = some v ∧
    npPercentile (red.filter (fun x => x ≠ 0)) 98 = some v ∧
    (∃ rn, normalizeBand red = .ok rn ∧ FV.nan ∈ rn) ∧
    (∃ data, fireWindowCompute red green blue = .ok (some data) ∧
      FV.nan ∈ data.redNorm ∧ FV.nan ∈ data.fireIdx ∧
      ∃ i, ∃ hI : i < data.fireIdx.length, ∃ hM : i < data.fireMask.length,
        data.fireIdx.get ⟨i, hI⟩ = FV.nan ∧ data.fireMask.get ⟨i, hM⟩ = false) := by
  obtain ⟨hq2, hq98, hred, hmem⟩ := normalizeBand_const hv hv0 hconst
  obtain ⟨gn, hgn, hgnlen⟩ := normalizeBand_ok hg
  obtain ⟨bn, hbn, hbnlen⟩ := normalizeBand_ok hb
  have hallf : red.all (fun x => x == 0) = false :=
    List.all_eq_false.mpr ⟨v, hv, by simpa using hv0⟩
  have hcomp : fireWindowCompute red green blue =
      .ok (some (fireData (red.map fun x =>
        FV.clip (FV.div (FV.fin (x - v)) (FV.fin (v - v))) (FV.fin 0) (FV.fin 1))
        gn bn)) := by
    unfold fireWindowCompute
    rw [hallf]
    simp only [Bool.false_and]
    rw [if_neg (by simp)]
    rw [hred, hgn, hbn]
    rfl
  have hrnlen : (red.map fun x =>
      FV.clip (FV.div (FV.fin (x - v)) (FV.fin (v - v))) (FV.fin 0) (FV.fin 1)).length
      = red.length := List.length_map _ _
  obtain ⟨i, hi, hredi⟩ := List.mem_iff_getElem.mp hv
  have hrni : ∀ h : i < (red.map fun x =>
      FV.clip (FV.div (FV.fin (x - v)) (FV.fin (v - v))) (FV.fin 0) (FV.fin 1)).length,
      (red.map fun x =>
        FV.clip (FV.div (FV.fin (x - v)) (FV.fin (v - v))) (FV.fin 0) (FV.fin 1))[i]
        = FV.nan := by
    intro h
    rw [List.getElem_map, hredi, sub_self]
    exact FV.clip_zero_div_zero
  have hfil : (fireIndexOf (red.map fun x =>
      FV.clip (FV.div (FV.fin (x - v)) (FV.fin (v - v))) (FV.fin 0) (FV.fin 1)) gn).length
      = red.length := by
    rw [fireIndexOf_length, hrnlen, hgnlen, hlen1, min_self]
  have hbrl : (brightnessOf (red.map fun x =>
      FV.clip (FV.div (FV.fin (x - v)) (FV.fin (v - v))) (FV.fin 0) (FV.fin 1)) gn bn).length
      = red.length := by
    rw [brightnessOf_length, hrnlen, hgnlen, hbnlen, hlen1, hlen2, min_self, min_self]
  have hfii : ∀ h : i < (fireIndexOf (red.map fun x =>
      FV.clip (FV.div (FV.fin (x - v)) (FV.fin (v - v))) (FV.fin 0) (FV.fin 1)) gn).length,
      (fireIndexOf (red.map fun x =>
        FV.clip (FV.div (FV.fin (x - v)) (FV.fin (v - v))) (FV.fin 0) (FV.fin 1)) gn)[i]
        = FV.nan := by
    intro h
    have hi1 : i < (red.map fun x =>
        FV.clip (FV.div (FV.fin (x - v)) (FV.fin (v - v))) (FV.fin 0) (FV.fin 1)).length := by
      rw [hrnlen]; exact hi
    unfold fireIndexOf
    rw [List.getElem_zipWith, hrni hi1, FV.sub_nan_left, FV.div_nan_left]
  refine ⟨hq2, hq98, ⟨_, hred, hmem⟩, ⟨_, hcomp, hmem, ?_, i, ?_, ?_, ?_, ?_⟩⟩
  · show FV.nan ∈ fireIndexOf _ gn
    have h : i < (fireIndexOf (red.map fun x =>
        FV.clip (FV.div (FV.fin (x - v)) (FV.fin (v - v))) (FV.fin 0) (FV.fin 1)) gn).length := by
      rw [hfil]; exact hi
    rw [← hfii h]
    exact List.getElem_mem h
  · show i < (fireIndexOf _ gn).length
    rw [hfil]; exact hi
  · show i < (List.zipWith _ (fireIndexOf _ gn) (brightnessOf _ gn bn)).length
    rw [List.length_zipWith, hfil, hbrl, min_self]; exact hi
  · rw [List.get_eq_getElem]
    exact hfii _
  · rw [List.get_eq_getElem]
    have hb1 : i < (fireIndexOf (red.map fun x =>
        FV.clip (FV.div (FV.fin (x - v)) (FV.fin (v - v))) (FV.fin 0) (FV.fin 1))
          gn).length := by
      rw [hfil]; exact hi
    have hb2 : i < (brightnessOf (red.map fun x =>
        FV.clip (FV.div (FV.fin (x - v)) (FV.fin (v - v))) (FV.fin 0) (FV.fin 1))
          gn bn).length := by
      rw [hbrl]; exact hi
    simp only [fireData]
    rw [List.getElem_zipWith, hfii hb1, FV.gt_nan_left, Bool.false_and]

/-- C10 as stated is false in one corner: the window `red=[5]`,
`green=[0]`, `blue=[5]` passes the all-zero skip check and red's
nonzero samples all equal 5, but the green band has no nonzero sample,
so `np.percentile` of an empty selection raises; the per-window handler
catches it, logs a warning and skips the tile — contradicting "no
exception is raised and the tile is not skipped". -/
theorem C10_counterexample :
    ((([(5 : ℚ)].all fun x => x == 0) && ([(0 : ℚ)].all fun x => x == 0) &&
      ([(5 : ℚ)].all fun x => x == 0)) = false) ∧
    (5 : ℚ) ∈ [(5 : ℚ)] ∧ (5 : ℚ) ≠ 0 ∧
    (∀ x ∈ [(5 : ℚ)], x ≠ 0 → x = 5) ∧
    fireWindowCompute [5] [0] [5] =
      .error "zero-size array to reduction operation fmin which has no identity" := by
  have hskip : ((([(5 : ℚ)].all fun x => x == 0) && ([(0 : ℚ)].all fun x => x == 0) &&
      ([(5 : ℚ)].all fun x => x == 0)) = false) := by
    have h50 : ((5 : ℚ) == 0) = false := by
      rw [beq_eq_false_iff_ne]
      norm_num
    simp [h50]
  refine ⟨hskip, by simp, by norm_num, fun x hx _ => by simpa using hx, ?_⟩
  have h5 := normalizeBand_const (show (5 : ℚ) ∈ [(5 : ℚ)] by simp) (by norm_num)
    (fun x hx _ => by simpa using hx)
  have h0 : normalizeBand [(0 : ℚ)] =
      .error "zero-size array to reduction operation fmin which has no identity" := by
    have hf : ([(0 : ℚ)].filter fun x => x ≠ 0) = [] := by simp
    unfold normalizeBand
    dsimp only
    rw [hf]
    rfl
  unfold fireWindowCompute
  rw [hskip, if_neg (by simp)]
  rw [h5.2.2.1, h0]
  rfl

/-- Closed instance of C10 amended at `red=[5,0]`, `green=[3,4]`,
`blue=[2,2]`: equal percentiles 5, NaN in the normalized red band, NaN
in the fire index, mask entry false, and no exception. -/
theorem C10_witness :
    npPercentile (([(5 : ℚ), 0]).filter (fun x => x ≠ 0)) 2 = some 5 ∧
    npPercentile (([(5 : ℚ), 0]).filter (fun x => x ≠ 0)) 98 = some 5 ∧
    (∃ rn, normalizeBand [(5 : ℚ), 0] = .ok rn ∧ FV.nan ∈ rn) ∧
    (∃ data, fireWindowCompute [(5 : ℚ), 0] [3, 4] [2, 2] = .ok (some data) ∧
      FV.nan ∈ data.redNorm ∧ FV.nan ∈ data.fireIdx ∧
      ∃ i, ∃ hI : i < data.fireIdx.length, ∃ hM : i < data.fireMask.length,
        data.fireIdx.get ⟨i, hI⟩ = FV.nan ∧ data.fireMask.get ⟨i, hM⟩ = false) :=
  C10_degenerate_normalize_nan 5 [5, 0] [3, 4] [2, 2] rfl rfl (by simp) (by norm_num)
    (by
      intro x hx hx0
      rcases (by simpa using hx : x = 5 ∨ x = 0) with h | h
      · exact h
      · exact absurd h hx0)
    ⟨3, by simp, by norm_num⟩ ⟨2, by simp, by norm_num⟩

end C2TS
